import Mathlib

/-!
Shallow embedding of selected components of the vscode repository,
with theorems checking the natural-language specification against the code.

Components embedded (from the TypeScript/JavaScript sources):
* `vs/nls.ts` — the in-process localization formatter (`_format`).
* `vs/workbench/contrib/scm/common/scmHistory.ts` — SCM history graph
  controller and renderer.
* `vs/platform/files/node/watcher/baseWatcher.ts` — file watcher base with
  polling fallback.
* `vs/platform/sharedProcess/electron-browser/sharedProcessWorkerService.ts`
  (second part) — `UtilityProcess` lifecycle manager.
* `vs/workbench/services/configuration/node/configurationEditingService.ts` —
  configuration editing validation, and `FileService2` move/copy validation.
* `vs/base/node/nls.js` — node-hosted NLS configuration resolver.
* The SCM multi-diff source resolver (`ScmMultiDiffSourceResolver`).
-/

namespace VSCode

/-! ## JavaScript runtime values

`_format` in `vs/nls.ts` receives arguments typed
`(string | number | boolean | undefined | null)[]`, but at runtime any value
can arrive.  We model JS numbers as integers (the only numbers that occur in
the claims), and collapse all non-primitive values into `.other`. -/

inductive JSArg where
  | str (s : String)
  | num (n : Int)
  | boolean (b : Bool)
  | undefined
  | null
  | other
  deriving Repr, DecidableEq

/-- JavaScript `String(arg)` for the primitive values modelled by `JSArg`.
For `.other` the code never calls `String`, so the value is irrelevant;
we still give it a definition for totality. -/
def jsString : JSArg → String
  | .str s => s
  | .num n => toString n
  | .boolean b => if b then "true" else "false"
  | .undefined => "undefined"
  | .null => "null"
  | .other => "[object Object]"

/-! ## `vs/nls.ts` `_format`

```ts
function _format(message, args) {
  let result;
  if (args.length === 0) {
    result = message;
  } else {
    result = message.replace(/\{(\d+)\}/g, (match, rest) => {
      const index = rest[0];
      const arg = args[index];
      let result = match;
      if (typeof arg === 'string') {
        result = arg;
      } else if (typeof arg === 'number' || typeof arg === 'boolean' || arg === void 0 || arg === null) {
        result = String(arg);
      }
      return result;
    });
  }
  if (isPseudo) {
    result = '［' + result.replace(/[aouei]/g, '$&$&') + '］';
  }
  return result;
}
```

Note `const index = rest[0]`: `rest` is the captured digit string, so the
lookup index is its FIRST character only. -/

/-- The replacement callback of `_format`: `matched` is the whole placeholder
token (`\x7b…\x7d`), `digits` the captured digit string.  Faithful to the JS:
`args[index]` with `index = digits[0]`; an out-of-range access yields
`undefined`, which renders as `"undefined"`. -/
def formatCallback (args : List JSArg) (matched : String) (digits : List Char) : String :=
  match digits with
  | [] => matched
  | c :: _ =>
    let index := c.toNat - '0'.toNat
    match args.get? index with
    | some (.str s) => s
    | some (.num n) => jsString (.num n)
    | some (.boolean b) => jsString (.boolean b)
    | some .undefined => jsString .undefined
    | some .null => jsString .null
    | some .other => matched
    | none => jsString .undefined

/-- `message.replace(/\{(\d+)\}/g, cb)`: scan left to right; at a `'\x7b'`
followed by one or more digits and a `'\x7d'`, the whole token is replaced by
the callback result and scanning continues after the token; otherwise the
character is kept.  This matches the regex semantics: the pattern can only
match a maximal digit run directly followed by `'\x7d'`. -/
def replaceNumberedPlaceholders (cb : String → List Char → String) : List Char → List Char
  | [] => []
  | c :: rest =>
    if h : c = '{' ∧ rest.takeWhile Char.isDigit ≠ [] ∧
        (rest.dropWhile Char.isDigit).head? = some '}' then
      (cb ⟨'{' :: rest.takeWhile Char.isDigit ++ ['}']⟩ (rest.takeWhile Char.isDigit)).data
        ++ replaceNumberedPlaceholders cb (rest.dropWhile Char.isDigit).tail
    else
      c :: replaceNumberedPlaceholders cb rest
termination_by l => l.length
decreasing_by
  all_goals simp only [List.length_cons]
  · rename_i rest
    have h1 : (rest.dropWhile Char.isDigit).length ≤ rest.length :=
      List.Sublist.length_le (List.dropWhile_sublist Char.isDigit)
    have h2 : rest.dropWhile Char.isDigit ≠ [] := by
      intro hnil
      simp [hnil] at h
    have h3 : (rest.dropWhile Char.isDigit).tail.length
        = (rest.dropWhile Char.isDigit).length - 1 := List.length_tail _
    have h4 : 0 < (rest.dropWhile Char.isDigit).length := List.length_pos.mpr h2
    omega
  · omega

/-- `result.replace(/[aouei]/g, '$&$&')` from the pseudo-localization branch:
every occurrence of a character of the class `[aouei]` is doubled. -/
def doubleClassAOUEI (s : List Char) : List Char :=
  s.flatMap (fun c => if c = 'a' ∨ c = 'o' ∨ c = 'u' ∨ c = 'e' ∨ c = 'i' then [c, c] else [c])

/-- `_format` from `vs/nls.ts`, with the module-level `isPseudo` flag made an
explicit parameter. -/
def _format (isPseudo : Bool) (message : String) (args : List JSArg) : String :=
  let result : String :=
    if args.length = 0 then message
    else ⟨replaceNumberedPlaceholders (formatCallback args) message.data⟩
  if isPseudo then
    "［" ++ String.mk (doubleClassAOUEI result.data) ++ "］"
  else
    result

/-! ## Spec-side formatting definitions (for claims C1 and C9)

These follow the words of the specification, to be compared with the
embedding of the code above. -/

/-- The numeric value of a digit string (the `n` of a `\x7bn\x7d` placeholder,
read in full, as the specification describes it). -/
def digitsToNat (ds : List Char) : Nat :=
  ds.foldl (fun acc c => 10 * acc + (c.toNat - '0'.toNat)) 0

/-- The value of only the FIRST digit of a digit string (what the code
actually uses as the lookup index). -/
def firstDigitToNat : List Char → Nat
  | [] => 0
  | c :: _ => c.toNat - '0'.toNat

/-- Rendering of one placeholder according to the specification: a string
argument is substituted verbatim; a number, boolean, undefined or null
argument renders via its textual (`String`) form; an argument of any other
type leaves the placeholder token unchanged.  A missing positional argument
is `undefined` in JavaScript and so renders as `"undefined"`. -/
def claimRender (args : List JSArg) (token : String) (n : Nat) : String :=
  match args.get? n with
  | some (.str s) => s
  | some (.num k) => jsString (.num k)
  | some (.boolean b) => jsString (.boolean b)
  | some .undefined => jsString .undefined
  | some .null => jsString .null
  | some .other => token
  | none => jsString .undefined

/-- Spec-side placeholder substitution, parameterized by how the digit string
of a placeholder is turned into the lookup index. -/
def substituteSpec (index : List Char → Nat) (args : List JSArg) : List Char → List Char
  | [] => []
  | c :: rest =>
    if h : c = '{' ∧ rest.takeWhile Char.isDigit ≠ [] ∧
        (rest.dropWhile Char.isDigit).head? = some '}' then
      (claimRender args ⟨'{' :: rest.takeWhile Char.isDigit ++ ['}']⟩
          (index (rest.takeWhile Char.isDigit))).data
        ++ substituteSpec index args (rest.dropWhile Char.isDigit).tail
    else
      c :: substituteSpec index args rest
termination_by l => l.length
decreasing_by
  all_goals simp only [List.length_cons]
  · rename_i rest
    have h1 : (rest.dropWhile Char.isDigit).length ≤ rest.length :=
      List.Sublist.length_le (List.dropWhile_sublist Char.isDigit)
    have h2 : rest.dropWhile Char.isDigit ≠ [] := by
      intro hnil
      simp [hnil] at h
    have h3 : (rest.dropWhile Char.isDigit).tail.length
        = (rest.dropWhile Char.isDigit).length - 1 := List.length_tail _
    have h4 : 0 < (rest.dropWhile Char.isDigit).length := List.length_pos.mpr h2
    omega
  · omega

/-- Formatting as claim C1 states it: each `\x7bn\x7d` placeholder is replaced
using the n-th positional argument (`n` read in full); a call with zero
arguments returns the message unchanged. -/
def specFormatC1 (message : String) (args : List JSArg) : String :=
  if args.length = 0 then message
  else ⟨substituteSpec digitsToNat args message.data⟩

/-- Formatting as amended: the lookup index is the FIRST digit of the
placeholder number (hence the n-th positional argument whenever n has a
single digit). -/
def specFormatC1Amended (message : String) (args : List JSArg) : String :=
  if args.length = 0 then message
  else ⟨substituteSpec firstDigitToNat args message.data⟩

/-- Spec-side doubling of every vowel, upper or lower case (claim C9 says
"every vowel"). -/
def doubleAllVowelsSpec (s : List Char) : List Char :=
  s.flatMap fun c =>
    if c ∈ ['a', 'e', 'i', 'o', 'u', 'A', 'E', 'I', 'O', 'U'] then [c, c] else [c]

/-- Spec-side doubling of every lowercase vowel (what the code's character
class `[aouei]` actually matches), written by direct recursion. -/
def doubleLowerVowelsSpec : List Char → List Char
  | [] => []
  | c :: rest =>
    if c ∈ ['a', 'e', 'i', 'o', 'u'] then c :: c :: doubleLowerVowelsSpec rest
    else c :: doubleLowerVowelsSpec rest

/-! ## Theorems for claims C1 and C9 -/

/-- The callback of the code agrees with the spec's per-placeholder rendering
once the lookup index is computed from the FIRST digit only. -/
theorem formatCallback_eq_claimRender (args : List JSArg) (t : String)
    (digits : List Char) (hne : digits ≠ []) :
    formatCallback args t digits = claimRender args t (firstDigitToNat digits) := by
  match digits, hne with
  | c :: ds, _ => simp only [formatCallback, claimRender, firstDigitToNat]

/-- The code's placeholder replacement coincides with the spec-side
substitution that uses the first digit of each placeholder as the index. -/
theorem replace_eq_subst (args : List JSArg) (l : List Char) :
    replaceNumberedPlaceholders (formatCallback args) l
      = substituteSpec firstDigitToNat args l := by
  induction l using replaceNumberedPlaceholders.induct (formatCallback args) with
  | case1 =>
      rw [replaceNumberedPlaceholders, substituteSpec]
  | case2 c rest h ih =>
      rw [replaceNumberedPlaceholders, substituteSpec]
      rw [dif_pos h, dif_pos h, ih, formatCallback_eq_claimRender]
      exact h.2.1
  | case3 c rest h ih =>
      rw [replaceNumberedPlaceholders, substituteSpec]
      rw [dif_neg h, dif_neg h, ih]

/-- Claim C1, counterexample: formatting does NOT replace a `\x7bn\x7d`
placeholder with the n-th positional argument when `n` has more than one
digit.  On message `"\x7b10\x7d"` with arguments `["a", "b"]` the code reads
only the first digit of `10` and substitutes argument 1 (`"b"`), while the
claim calls for argument 10, which is absent and would render as
`"undefined"`. -/
theorem c1_counterexample :
    _format false "{10}" [JSArg.str "a", JSArg.str "b"] = "b" ∧
    specFormatC1 "{10}" [JSArg.str "a", JSArg.str "b"] = "undefined" ∧
    _format false "{10}" [JSArg.str "a", JSArg.str "b"]
      ≠ specFormatC1 "{10}" [JSArg.str "a", JSArg.str "b"] := by
  refine ⟨?_, ?_, ?_⟩ <;>
    simp [_format, specFormatC1, replaceNumberedPlaceholders, substituteSpec,
      formatCallback, claimRender, digitsToNat, jsString, String.data]

/-- Claim C1 as amended: for every message and argument list, formatting
replaces each `\x7bn\x7d` placeholder using the index given by the FIRST
digit of `n` (hence the n-th positional argument exactly when `n` is a single
digit): a string argument is substituted verbatim; a number, boolean,
undefined or null argument renders via its textual (`String`) form; an
argument of any other type leaves the placeholder token unchanged; and a call
with zero arguments returns the message unchanged. -/
theorem c1_format_replaces_placeholders (message : String) (args : List JSArg) :
    _format false message args = specFormatC1Amended message args := by
  simp only [_format, specFormatC1Amended, Bool.false_eq_true, if_false]
  by_cases h : args.length = 0
  · rw [if_pos h, if_pos h]
  · rw [if_neg h, if_neg h, replace_eq_subst]

/-- The code's `[aouei]` doubling agrees with the spec-side doubling of every
lowercase vowel. -/
theorem doubleClassAOUEI_eq_lower (l : List Char) :
    doubleClassAOUEI l = doubleLowerVowelsSpec l := by
  induction l with
  | nil => rfl
  | cons c rest ih =>
    have hmem : (c = 'a' ∨ c = 'o' ∨ c = 'u' ∨ c = 'e' ∨ c = 'i')
        ↔ c ∈ ['a', 'e', 'i', 'o', 'u'] := by
      simp only [List.mem_cons, List.not_mem_nil, or_false]
      tauto
    simp only [doubleClassAOUEI, doubleLowerVowelsSpec, List.flatMap_cons] at *
    by_cases h : c ∈ ['a', 'e', 'i', 'o', 'u']
    · rw [if_pos (hmem.mpr h), if_pos h]
      simpa using ih
    · rw [if_neg (fun hc => h (hmem.mp hc)), if_neg h]
      simpa using ih

/-- Claim C9, counterexample: in pseudo-localization mode NOT every vowel is
doubled — only lowercase vowels are (the regex character class is `[aouei]`).
On input `"E"` the result keeps the single uppercase `E`, while the claim
calls for it to be doubled. -/
theorem c9_counterexample :
    _format true "E" [] = "［E］" ∧
    "［" ++ String.mk (doubleAllVowelsSpec ((_format false "E" []).data)) ++ "］"
      = "［EE］" ∧
    _format true "E" []
      ≠ "［" ++ String.mk (doubleAllVowelsSpec ((_format false "E" []).data)) ++ "］" := by
  refine ⟨?_, ?_, ?_⟩ <;>
    simp [_format, doubleClassAOUEI, doubleAllVowelsSpec, String.data]

/-- Claim C9 as amended: whenever the pseudo-localization flag is active, the
result of formatting any message is the placeholder-substituted string
wrapped in full-width brackets — it begins with `［` and ends with
`］` — and every LOWERCASE vowel (`a`, `o`, `u`, `e`, `i`) in between is
doubled. -/
theorem c9_pseudo_localization (message : String) (args : List JSArg) :
    _format true message args
      = "［" ++ String.mk (doubleLowerVowelsSpec ((_format false message args).data)) ++ "］" := by
  rw [← doubleClassAOUEI_eq_lower]
  simp only [_format, Bool.false_eq_true, if_false, if_true]

/-! ## `vs/workbench/contrib/scm/common/scmHistory.ts`

Data model: a swimlane node `\x7b id, color \x7d`, a history item
`\x7b id, parentIds \x7d`, and the per-repository graph controller state
(`_historyItems` plus the color cursor `_colorIndex`, initially `-1`).
Colors are palette indices; we keep them as `Int` like JS numbers. -/

structure GraphNode where
  id : String
  color : Int
  deriving Repr, DecidableEq

structure HistoryItem where
  id : String
  parentIds : List String
  deriving Repr, DecidableEq

structure HistoryItemViewModel where
  historyItem : HistoryItem
  inputSwimlanes : List GraphNode
  outputSwimlanes : List GraphNode
  deriving Repr, DecidableEq

/-- `const graphColors = [...]` — the fixed 6-color palette. -/
def graphColors : List String :=
  ["#007ACC", "#BC3FBC", "#BF8803", "#CC6633", "#F14C4C", "#16825D"]

structure GraphControllerState where
  historyItems : List HistoryItemViewModel
  colorIndex : Int
  deriving Repr, DecidableEq

/-- The initial controller state (`_historyItems = []`, `_colorIndex = -1`). -/
def initialGraphState : GraphControllerState := { historyItems := [], colorIndex := -1 }

/-- `getGraphColorIndex`:
`this._colorIndex = this._colorIndex < graphColors.length - 1 ? this._colorIndex + 1 : 1`.
The returned index is also the new cursor value. -/
def getGraphColorIndex (colorIndex : Int) : Int :=
  if colorIndex < (graphColors.length : Int) - 1 then colorIndex + 1 else 1

/-- `clearHistoryItems`: resets the item list and the color cursor. -/
def clearHistoryItems (_s : GraphControllerState) : GraphControllerState :=
  initialGraphState

/-- The first loop of `appendHistoryItems`: walk the input swimlanes; at the
first node carrying the item's own id, emit it with the id rewritten to the
first parent (keeping its color); further nodes with the item's id are
skipped (`continue`); all other nodes are emitted unchanged.  Returns the
built output prefix and the final `firstParentAdded` flag. -/
def addFirstParent (itemId firstParent : String) :
    List GraphNode → Bool → List GraphNode × Bool
  | [], firstParentAdded => ([], firstParentAdded)
  | node :: rest, firstParentAdded =>
    if node.id = itemId then
      if firstParentAdded then
        addFirstParent itemId firstParent rest firstParentAdded
      else
        let (out, fpa) := addFirstParent itemId firstParent rest true
        ({ node with id := firstParent } :: out, fpa)
    else
      let (out, fpa) := addFirstParent itemId firstParent rest firstParentAdded
      (node :: out, fpa)

/-- The second loop of `appendHistoryItems`: append one output lane per
remaining parent id, each with a freshly allocated color.  Returns the
appended lanes and the new color cursor. -/
def allocRemainingParents (colorIndex : Int) : List String → List GraphNode × Int
  | [] => ([], colorIndex)
  | pid :: rest =>
    let fresh := getGraphColorIndex colorIndex
    let (out, c2) := allocRemainingParents fresh rest
    ({ id := pid, color := fresh } :: out, c2)

/-- `lastOrDefault(this.historyItems)?.outputSwimlanes ?? []` — the input
swimlanes the next appended item will receive. -/
def currentInputSwimlanes (s : GraphControllerState) : List GraphNode :=
  match s.historyItems.getLast? with
  | some vm => vm.outputSwimlanes
  | none => []

/-- One iteration of `appendHistoryItems`: clone the previous item's output
swimlanes as input, build the output swimlanes, and push the view model. -/
def appendOneHistoryItem (s : GraphControllerState) (historyItem : HistoryItem) :
    GraphControllerState :=
  let inputSwimlanes := currentInputSwimlanes s
  let (outputSwimlanes, colorIndex2) :=
    match historyItem.parentIds with
    | [] => (([] : List GraphNode), s.colorIndex)
    | p0 :: restParents =>
      let (outFirst, firstParentAdded) := addFirstParent historyItem.id p0 inputSwimlanes false
      let remaining := if firstParentAdded then restParents else p0 :: restParents
      let (extra, c2) := allocRemainingParents s.colorIndex remaining
      (outFirst ++ extra, c2)
  { historyItems := s.historyItems
      ++ [{ historyItem := historyItem, inputSwimlanes := inputSwimlanes,
            outputSwimlanes := outputSwimlanes }],
    colorIndex := colorIndex2 }

/-- `appendHistoryItems` iterates `appendOneHistoryItem` over the batch. -/
def appendHistoryItems (s : GraphControllerState) (items : List HistoryItem) :
    GraphControllerState :=
  items.foldl appendOneHistoryItem s

/-! ### The SVG renderer (`renderSCMHistoryItemGraph`) -/

def SWIMLANE_HEIGHT : Int := 22
def SWIMLANE_WIDTH : Int := 11
def CIRCLE_RADIUS : Int := 4

/-- An SVG element as produced by the renderer: a `path` (with its `d` data
and stroke color) or a `circle`. -/
inductive SVGElement where
  | path (d : String) (stroke : String)
  | circle (cx : Int) (cy : Int) (r : Int) (fill : String) (stroke : String)
  deriving Repr, DecidableEq

/-- `graphColors[i]` under JS semantics: an out-of-range index yields
`undefined`, which `setAttribute` coerces to the string `"undefined"`. -/
def graphColorAt (i : Int) : String :=
  if h : 0 ≤ i ∧ i.toNat < graphColors.length then graphColors.get ⟨i.toNat, h.2⟩
  else "undefined"

/-- `Array.prototype.findIndex` (−1 when absent). -/
def findIndexInt (p : GraphNode → Bool) (l : List GraphNode) : Int :=
  match l.findIdx? p with
  | some i => (i : Int)
  | none => -1

/-- The module-level `findLastIndex` helper of `scmHistory.ts`. -/
def findLastIndex (nodes : List GraphNode) (id : String) : Int :=
  match nodes.reverse.findIdx? (fun n => n.id = id) with
  | some i => (nodes.length : Int) - 1 - (i : Int)
  | none => -1

/-- `drawVerticalLine(x1, y1, y2, color)`. -/
def drawVerticalLine (x1 y1 y2 : Int) (color : String) : SVGElement :=
  .path ("M " ++ toString x1 ++ " " ++ toString y1 ++ " V " ++ toString y2) color

/-- `drawCircle(index, radius, stroke, fill)` — `cx` is
`SWIMLANE_WIDTH * (index + 1)`, `cy` is `SWIMLANE_WIDTH`. -/
def drawCircle (index radius : Int) (stroke fill : String) : SVGElement :=
  .circle (SWIMLANE_WIDTH * (index + 1)) SWIMLANE_WIDTH radius fill stroke

/-- Body of the per-input-swimlane loop: returns the path drawn at position
`index` for `node`, or `none` when the iteration draws nothing (the current
commit's own lane when it is already aligned with the circle). -/
def laneLoopElement (item : HistoryItem) (output : List GraphNode)
    (circleIndex : Int) (index : Nat) (node : GraphNode) : Option SVGElement :=
  let color := graphColorAt node.color
  if node.id ≠ item.id then
    if index < output.length ∧ (output.get? index).map (·.id) = some node.id then
      some (drawVerticalLine (SWIMLANE_WIDTH * ((index : Int) + 1)) 0 SWIMLANE_HEIGHT color)
    else
      some (.path (String.intercalate " "
        ["M " ++ toString (SWIMLANE_WIDTH * ((index : Int) + 1)) ++ " 0",
         "A " ++ toString SWIMLANE_WIDTH ++ " " ++ toString SWIMLANE_WIDTH ++ " 0 0 1 "
           ++ toString (SWIMLANE_WIDTH * (index : Int)) ++ " " ++ toString (SWIMLANE_HEIGHT / 2),
         "H " ++ toString (SWIMLANE_WIDTH * (findLastIndex output node.id + 1)),
         "V " ++ toString SWIMLANE_HEIGHT]) color)
  else if (index : Int) ≠ circleIndex then
    some (.path (String.intercalate " "
      ["M " ++ toString (SWIMLANE_WIDTH * ((index : Int) + 1)) ++ " 0",
       "A " ++ toString SWIMLANE_WIDTH ++ " " ++ toString SWIMLANE_WIDTH ++ " 0 0 1 "
         ++ toString (SWIMLANE_WIDTH * (index : Int)) ++ " " ++ toString SWIMLANE_WIDTH,
       "H " ++ toString (SWIMLANE_WIDTH * (circleIndex + 1))]) color)
  else
    none

/-- Body of the remaining-parents loop: the diverging curve for one parent
beyond the first, or `none` when the parent has no output lane. -/
def parentLoopElement (output : List GraphNode) (circleIndex : Int)
    (pid : String) : Option SVGElement :=
  let parentOutputIndex := findIndexInt (fun n => n.id = pid) output
  if parentOutputIndex = -1 then
    none
  else
    some (.path (String.intercalate " "
      ["M " ++ toString (SWIMLANE_WIDTH * parentOutputIndex) ++ " "
         ++ toString (SWIMLANE_HEIGHT / 2),
       "A " ++ toString SWIMLANE_WIDTH ++ " " ++ toString SWIMLANE_WIDTH ++ " 0 0 1 "
         ++ toString (SWIMLANE_WIDTH * (parentOutputIndex + 1)) ++ " "
         ++ toString SWIMLANE_HEIGHT,
       "M " ++ toString (SWIMLANE_WIDTH * parentOutputIndex) ++ " "
         ++ toString (SWIMLANE_HEIGHT / 2),
       "H " ++ toString (SWIMLANE_WIDTH * (circleIndex + 1)) ++ " "])
      (graphColorAt ((output.get? parentOutputIndex.toNat).map (·.color) |>.getD 0)))

/-- `const inputIndex = inputSwimlanes.findIndex(node => node.id === historyItem.id)`. -/
def renderInputIndex (vm : HistoryItemViewModel) : Int :=
  findIndexInt (fun n => n.id = vm.historyItem.id) vm.inputSwimlanes

/-- `const outputIndex = historyItem.parentIds.length === 0 ? -1 :
outputSwimlanes.findIndex(node => node.id === historyItem.parentIds[0])`. -/
def renderOutputIndex (vm : HistoryItemViewModel) : Int :=
  match vm.historyItem.parentIds with
  | [] => -1
  | p0 :: _ => findIndexInt (fun n => n.id = p0) vm.outputSwimlanes

/-- `const circleIndex = inputIndex !== -1 ? inputIndex : inputSwimlanes.length`. -/
def renderCircleIndex (vm : HistoryItemViewModel) : Int :=
  if renderInputIndex vm ≠ -1 then renderInputIndex vm else (vm.inputSwimlanes.length : Int)

/-- `const circleColorIndex = inputIndex !== -1 ? inputSwimlanes[inputIndex].color
: outputSwimlanes[circleIndex].color` — `none` models the JS `TypeError` on an
out-of-bounds `outputSwimlanes[circleIndex]`. -/
def renderCircleColorIndex (vm : HistoryItemViewModel) : Option Int :=
  if renderInputIndex vm ≠ -1 then
    (vm.inputSwimlanes.get? (renderInputIndex vm).toNat).map (·.color)
  else
    (vm.outputSwimlanes.get? (renderCircleIndex vm).toNat).map (·.color)

/-- `renderSCMHistoryItemGraph`, as the ordered list of appended SVG
elements.  Returns `none` exactly when the JS code would throw (see
`renderCircleColorIndex`). -/
def renderSCMHistoryItemGraph (vm : HistoryItemViewModel) : Option (List SVGElement) :=
  match renderCircleColorIndex vm with
  | none => none
  | some circleColorIndex =>
    some ((vm.inputSwimlanes.enum.filterMap fun ic =>
        laneLoopElement vm.historyItem vm.outputSwimlanes (renderCircleIndex vm) ic.1 ic.2)
      ++ (vm.historyItem.parentIds.drop 1).filterMap
          (parentLoopElement vm.outputSwimlanes (renderCircleIndex vm))
      ++ (if renderInputIndex vm ≠ -1 then
            [drawVerticalLine (SWIMLANE_WIDTH * (renderCircleIndex vm + 1)) 0
              (SWIMLANE_HEIGHT / 2) (graphColorAt circleColorIndex)]
          else [])
      ++ (if renderOutputIndex vm ≠ -1 then
            [drawVerticalLine (SWIMLANE_WIDTH * (renderCircleIndex vm + 1))
              (SWIMLANE_HEIGHT / 2) SWIMLANE_HEIGHT (graphColorAt circleColorIndex)]
          else [])
      ++ (if vm.historyItem.parentIds.length = 1 then
            [drawCircle (renderCircleIndex vm) CIRCLE_RADIUS "#f8f8f8"
              (graphColorAt circleColorIndex)]
          else
            [drawCircle (renderCircleIndex vm) (CIRCLE_RADIUS + 1) "#f8f8f8"
              (graphColorAt circleColorIndex),
             drawCircle (renderCircleIndex vm) (CIRCLE_RADIUS - 1) "#f8f8f8"
              (graphColorAt circleColorIndex)]))

/-- Is this element a circle? -/
def SVGElement.isCircle : SVGElement → Bool
  | .circle _ _ _ _ _ => true
  | .path _ _ => false

/-! ## Theorems for claims C7 and C10 -/

/-- Once `firstParentAdded` is set, the remainder of the first loop keeps
every node except further occurrences of the item's own id. -/
theorem addFirstParent_true (itemId p : String) (lanes : List GraphNode) :
    addFirstParent itemId p lanes true
      = (lanes.filter (fun n => n.id != itemId), true) := by
  induction lanes with
  | nil => rfl
  | cons node rest ih =>
    simp only [addFirstParent, List.filter_cons]
    by_cases h : node.id = itemId
    · rw [if_pos h, ih]
      simp [h]
    · rw [if_neg h, ih]
      simp [h]

/-- Characterization of the first loop of `appendHistoryItems` when the
item's id occurs in the input swimlanes: the first occurrence is rewritten to
the first parent id (keeping its color), later occurrences are dropped, and
everything else is kept. -/
theorem addFirstParent_decomp (itemId p : String) (pre post : List GraphNode)
    (node : GraphNode) (hnode : node.id = itemId) (hpre : itemId ∉ pre.map (·.id)) :
    addFirstParent itemId p (pre ++ node :: post) false
      = (pre ++ { node with id := p } :: post.filter (fun n => n.id != itemId), true) := by
  induction pre with
  | nil =>
    simp only [List.nil_append, addFirstParent, if_pos hnode]
    rw [if_neg (by simp), addFirstParent_true]
  | cons hd rest ih =>
    have hhd : hd.id ≠ itemId := by
      intro hc
      exact hpre (by simp [hc])
    have hrest : itemId ∉ rest.map (·.id) := fun hc => hpre (by simp [hc])
    simp only [List.cons_append, addFirstParent, if_neg hhd, List.append_eq]
    rw [ih hrest]

/-- One allocator call starting inside the palette range `[1, last]` stays
inside it. -/
theorem getGraphColorIndex_step (c : Int) (h1 : 1 ≤ c)
    (h5 : c ≤ (graphColors.length : Int) - 1) :
    1 ≤ getGraphColorIndex c ∧ getGraphColorIndex c ≤ (graphColors.length : Int) - 1 := by
  have hlen : (graphColors.length : Int) = 6 := by simp [graphColors]
  unfold getGraphColorIndex
  rw [hlen] at h5 ⊢
  split <;> omega

/-- Claim C7: (a) every color index returned by the allocator after the
cursor has reached the palette's last index lies in `[1, 5]` — index `0` is
never returned again; (b) `clearHistoryItems` resets the state (and hence the
cursor to `-1`, making index `0` available again); (c) appending a history
item with two parents, whose own id occupies an input swimlane, advances the
color cursor exactly once: the second parent's appended output lane carries
the single fresh color, while the first parent's output lane keeps the color
of the commit's own input lane. -/
theorem c7_graph_color_allocation :
    (∀ n : Nat, 1 ≤ n →
        1 ≤ getGraphColorIndex^[n] ((graphColors.length : Int) - 1) ∧
        getGraphColorIndex^[n] ((graphColors.length : Int) - 1)
          ≤ (graphColors.length : Int) - 1) ∧
    (∀ s : GraphControllerState, clearHistoryItems s = initialGraphState) ∧
    (∀ (s : GraphControllerState) (item : HistoryItem) (p0 p1 : String)
        (pre post : List GraphNode) (node : GraphNode),
      item.parentIds = [p0, p1] →
      currentInputSwimlanes s = pre ++ node :: post →
      node.id = item.id →
      item.id ∉ pre.map (·.id) →
      (appendOneHistoryItem s item).colorIndex = getGraphColorIndex s.colorIndex ∧
      (appendOneHistoryItem s item).historyItems
        = s.historyItems ++ [(⟨item, currentInputSwimlanes s,
            pre ++ (⟨p0, node.color⟩ : GraphNode) ::
              (post.filter (fun n => n.id != item.id)
                ++ [(⟨p1, getGraphColorIndex s.colorIndex⟩ : GraphNode)])⟩
            : HistoryItemViewModel)]) := by
  refine ⟨?_, fun s => rfl, ?_⟩
  · intro n hn
    induction n with
    | zero => omega
    | succ k ih =>
      by_cases hk : 1 ≤ k
      · have hik := ih hk
        rw [Function.iterate_succ_apply']
        exact getGraphColorIndex_step _ hik.1 hik.2
      · have hk0 : k = 0 := by omega
        subst hk0
        simp [Function.iterate_one, getGraphColorIndex, graphColors]
  · intro s item p0 p1 pre post node hp hlanes hnode hpre
    have hfp := addFirstParent_decomp item.id p0 pre post node hnode hpre
    simp only [appendOneHistoryItem, hp, hlanes, hfp]
    constructor
    · simp [allocRemainingParents]
    · simp [allocRemainingParents]

/-- Witness for claim C7: two allocator steps from the last palette index
stay in `[1, 5]`, and appending the two-parent item `b → [c, d]` after
`a → [b]` advances the cursor once, reusing color `0` for parent `c` and
allocating the fresh color for parent `d`. -/
theorem c7_graph_color_allocation_witness :
    (1 ≤ getGraphColorIndex^[2] ((graphColors.length : Int) - 1) ∧
      getGraphColorIndex^[2] ((graphColors.length : Int) - 1)
        ≤ (graphColors.length : Int) - 1) ∧
    ((appendOneHistoryItem (appendOneHistoryItem initialGraphState ⟨"a", ["b"]⟩)
        ⟨"b", ["c", "d"]⟩).colorIndex
      = getGraphColorIndex (appendOneHistoryItem initialGraphState ⟨"a", ["b"]⟩).colorIndex ∧
    (appendOneHistoryItem (appendOneHistoryItem initialGraphState ⟨"a", ["b"]⟩)
        ⟨"b", ["c", "d"]⟩).historyItems
      = (appendOneHistoryItem initialGraphState ⟨"a", ["b"]⟩).historyItems
        ++ [(⟨⟨"b", ["c", "d"]⟩,
            currentInputSwimlanes (appendOneHistoryItem initialGraphState ⟨"a", ["b"]⟩),
            [] ++ (⟨"c", (⟨"b", (0 : Int)⟩ : GraphNode).color⟩ : GraphNode) ::
              (([] : List GraphNode).filter (fun n => n.id != "b")
                ++ [(⟨"d", getGraphColorIndex (appendOneHistoryItem initialGraphState
                      ⟨"a", ["b"]⟩).colorIndex⟩ : GraphNode)])⟩
          : HistoryItemViewModel)]) :=
  ⟨c7_graph_color_allocation.1 2 (by norm_num),
   c7_graph_color_allocation.2.2 _ ⟨"b", ["c", "d"]⟩ "c" "d" [] [] ⟨"b", 0⟩ rfl
     (by decide) rfl (by simp)⟩

/-- Every element the per-input-swimlane loop emits is a path, never a
circle. -/
theorem laneLoopElement_path (item : HistoryItem) (output : List GraphNode)
    (circleIndex : Int) (index : Nat) (node : GraphNode) (e : SVGElement)
    (h : laneLoopElement item output circleIndex index node = some e) :
    e.isCircle = false := by
  simp only [laneLoopElement, drawVerticalLine] at h
  repeat' split at h
  all_goals first
    | (injection h with h; subst h; rfl)
    | injection h

/-- Every element the remaining-parents loop emits is a path, never a
circle. -/
theorem parentLoopElement_path (output : List GraphNode) (circleIndex : Int)
    (pid : String) (e : SVGElement)
    (h : parentLoopElement output circleIndex pid = some e) :
    e.isCircle = false := by
  simp only [parentLoopElement] at h
  repeat' split at h
  all_goals first
    | (injection h with h; subst h; rfl)
    | injection h

/-- Claim C10: whenever the renderer returns, the circle elements of its
output are exactly one filled circle of radius `CIRCLE_RADIUS` when the
history item has exactly one parent id, and exactly the two concentric
circles (radii `CIRCLE_RADIUS ± 1`) of the merge-commit rendering for every
other parent count — including zero parents — so a parentless commit is
visually indistinguishable from a merge commit. -/
theorem c10_render_node_shape (vm : HistoryItemViewModel) (elems : List SVGElement)
    (h : renderSCMHistoryItemGraph vm = some elems) :
    ∃ (circleIndex : Int) (fill : String),
      (vm.historyItem.parentIds.length = 1 →
        elems.filter SVGElement.isCircle
          = [SVGElement.circle (SWIMLANE_WIDTH * (circleIndex + 1)) SWIMLANE_WIDTH
              CIRCLE_RADIUS fill "#f8f8f8"]) ∧
      (vm.historyItem.parentIds.length ≠ 1 →
        elems.filter SVGElement.isCircle
          = [SVGElement.circle (SWIMLANE_WIDTH * (circleIndex + 1)) SWIMLANE_WIDTH
              (CIRCLE_RADIUS + 1) fill "#f8f8f8",
             SVGElement.circle (SWIMLANE_WIDTH * (circleIndex + 1)) SWIMLANE_WIDTH
              (CIRCLE_RADIUS - 1) fill "#f8f8f8"]) := by
  unfold renderSCMHistoryItemGraph at h
  split at h
  · cases h
  · next circleColorIndex heq =>
    injection h with h
    subst h
    have hlane : List.filter SVGElement.isCircle
        (vm.inputSwimlanes.enum.filterMap fun ic =>
          laneLoopElement vm.historyItem vm.outputSwimlanes (renderCircleIndex vm)
            ic.1 ic.2) = [] := by
      rw [List.filter_eq_nil_iff]
      intro e he
      obtain ⟨a, hmem, hsome⟩ := List.mem_filterMap.mp he
      simp [laneLoopElement_path _ _ _ _ _ _ hsome]
    have hparent : List.filter SVGElement.isCircle
        ((vm.historyItem.parentIds.drop 1).filterMap
          (parentLoopElement vm.outputSwimlanes (renderCircleIndex vm))) = [] := by
      rw [List.filter_eq_nil_iff]
      intro e he
      obtain ⟨a, hmem, hsome⟩ := List.mem_filterMap.mp he
      simp [parentLoopElement_path _ _ _ _ hsome]
    have hstub : ∀ (c : Prop) (inst : Decidable c) (x1 y1 y2 : Int) (col : String),
        List.filter SVGElement.isCircle
          (if c then [drawVerticalLine x1 y1 y2 col] else []) = [] := by
      intro c inst x1 y1 y2 col
      split <;> simp [drawVerticalLine, SVGElement.isCircle]
    refine ⟨renderCircleIndex vm, graphColorAt circleColorIndex, ?_, ?_⟩ <;>
      intro hpar <;>
      simp only [List.filter_append, hlane, hparent, hstub, List.nil_append]
    · rw [if_pos hpar]
      simp [drawCircle, SVGElement.isCircle]
    · rw [if_neg hpar]
      simp [drawCircle, SVGElement.isCircle]

/-- Witness for claim C10: the zero-parent item `d` (whose lane is in the
input swimlanes) renders the two concentric merge circles, and the
one-parent item `b → [c]` renders the single filled circle. -/
theorem c10_render_node_shape_witness :
    (∃ (circleIndex : Int) (fill : String),
      ((0 : Nat) = 1 →
        List.filter SVGElement.isCircle
          [SVGElement.path "M 11 0 V 11" "#007ACC",
           SVGElement.circle 11 11 5 "#007ACC" "#f8f8f8",
           SVGElement.circle 11 11 3 "#007ACC" "#f8f8f8"]
          = [SVGElement.circle (SWIMLANE_WIDTH * (circleIndex + 1)) SWIMLANE_WIDTH
              CIRCLE_RADIUS fill "#f8f8f8"]) ∧
      ((0 : Nat) ≠ 1 →
        List.filter SVGElement.isCircle
          [SVGElement.path "M 11 0 V 11" "#007ACC",
           SVGElement.circle 11 11 5 "#007ACC" "#f8f8f8",
           SVGElement.circle 11 11 3 "#007ACC" "#f8f8f8"]
          = [SVGElement.circle (SWIMLANE_WIDTH * (circleIndex + 1)) SWIMLANE_WIDTH
              (CIRCLE_RADIUS + 1) fill "#f8f8f8",
             SVGElement.circle (SWIMLANE_WIDTH * (circleIndex + 1)) SWIMLANE_WIDTH
              (CIRCLE_RADIUS - 1) fill "#f8f8f8"])) ∧
    (∃ (circleIndex : Int) (fill : String),
      ((1 : Nat) = 1 →
        List.filter SVGElement.isCircle
          [SVGElement.path "M 11 0 V 11" "#007ACC",
           SVGElement.path "M 11 11 V 22" "#007ACC",
           SVGElement.circle 11 11 4 "#007ACC" "#f8f8f8"]
          = [SVGElement.circle (SWIMLANE_WIDTH * (circleIndex + 1)) SWIMLANE_WIDTH
              CIRCLE_RADIUS fill "#f8f8f8"]) ∧
      ((1 : Nat) ≠ 1 →
        List.filter SVGElement.isCircle
          [SVGElement.path "M 11 0 V 11" "#007ACC",
           SVGElement.path "M 11 11 V 22" "#007ACC",
           SVGElement.circle 11 11 4 "#007ACC" "#f8f8f8"]
          = [SVGElement.circle (SWIMLANE_WIDTH * (circleIndex + 1)) SWIMLANE_WIDTH
              (CIRCLE_RADIUS + 1) fill "#f8f8f8",
             SVGElement.circle (SWIMLANE_WIDTH * (circleIndex + 1)) SWIMLANE_WIDTH
              (CIRCLE_RADIUS - 1) fill "#f8f8f8"])) :=
  ⟨c10_render_node_shape ⟨⟨"d", []⟩, [⟨"d", 0⟩], []⟩
      [SVGElement.path "M 11 0 V 11" "#007ACC",
       SVGElement.circle 11 11 5 "#007ACC" "#f8f8f8",
       SVGElement.circle 11 11 3 "#007ACC" "#f8f8f8"] (by rfl),
   c10_render_node_shape ⟨⟨"b", ["c"]⟩, [⟨"b", 0⟩], [⟨"c", 0⟩]⟩
      [SVGElement.path "M 11 0 V 11" "#007ACC",
       SVGElement.path "M 11 11 V 22" "#007ACC",
       SVGElement.circle 11 11 4 "#007ACC" "#f8f8f8"] (by rfl)⟩

/-! ## `vs/platform/files/node/watcher/baseWatcher.ts`

The watcher base keeps the full request set plus a map of suspended requests;
each suspended request owns a polling monitor whose closure variable
`pathNotFound` we store alongside it.  JS keys the map by object identity; we
model requests as values and assume distinct requests are distinct values.
Operations return, besides the new state, the `IFileChange` events fired and
the request list passed to `doWatch` when `updateWatchers` runs. -/

inductive FileChangeType where
  | ADDED
  | CHANGED
  | DELETED
  deriving Repr, DecidableEq

structure WatchRequest where
  path : String
  correlationId : Option Int
  deriving Repr, DecidableEq

structure FileChange where
  path : String
  type : FileChangeType
  cId : Option Int
  deriving Repr, DecidableEq

/-- `fs.Stats`, restricted to the two fields the watcher reads. -/
structure JSStats where
  ctimeMs : Int
  ino : Int
  deriving Repr, DecidableEq

/-- `isPathNotFound`: change-time and inode both zero. -/
def isPathNotFound (stats : JSStats) : Bool :=
  stats.ctimeMs = 0 ∧ stats.ino = 0

/-- `isCorrelated`: `typeof request.correlationId === 'number'`. -/
def isCorrelated (request : WatchRequest) : Bool :=
  request.correlationId.isSome

structure WatcherState where
  allWatchRequests : List WatchRequest
  suspended : List (WatchRequest × Bool)
  deriving Repr, DecidableEq

/-- Lookup of a suspended request's monitor flag (`none` = not suspended). -/
def findSuspended (suspended : List (WatchRequest × Bool)) (r : WatchRequest) :
    Option Bool :=
  match suspended with
  | [] => none
  | (q, f) :: rest => if q = r then some f else findSuspended rest r

/-- `updateWatchers` passes the non-suspended requests to `doWatch`. -/
def activeRequests (s : WatcherState) : List WatchRequest :=
  s.allWatchRequests.filter (fun q => (findSuspended s.suspended q).isNone)

/-- `suspendWatchRequest`: no-op when already suspended; otherwise install a
polling monitor (initial `pathNotFound = false`) and re-run `updateWatchers`.
The second component is the request list handed to `doWatch`, when any. -/
def suspendWatchRequest (s : WatcherState) (request : WatchRequest) :
    WatcherState × Option (List WatchRequest) :=
  if (findSuspended s.suspended request).isSome then (s, none)
  else
    let s2 := { s with suspended := s.suspended ++ [(request, false)] }
    (s2, some (activeRequests s2))

/-- `handleDidWatchFail`: only correlation-tracked requests are suspended. -/
def handleDidWatchFail (s : WatcherState) (request : WatchRequest) :
    WatcherState × Option (List WatchRequest) :=
  if ¬ isCorrelated request then (s, none)
  else suspendWatchRequest s request

/-- `resumeWatchRequest`: dispose the polling watch and re-run
`updateWatchers`. -/
def resumeWatchRequest (s : WatcherState) (request : WatchRequest) :
    WatcherState × List WatchRequest :=
  let s2 := { s with suspended := s.suspended.filter (fun qf => qf.1 ≠ request) }
  (s2, activeRequests s2)

/-- The `fs.watchFile` callback of `monitorSuspendedWatchRequest` for one
suspended request: update the monitor's `pathNotFound` flag, and on the
created / created-from-rename transition fire one `ADDED` event (tagged with
the request's correlation id) and resume the request.  Returns the new state,
the fired events, and the `doWatch` argument when `updateWatchers` ran.  A
disposed monitor (request no longer suspended) returns early. -/
def watchFileCallback (s : WatcherState) (request : WatchRequest)
    (curr prev : JSStats) :
    WatcherState × List FileChange × Option (List WatchRequest) :=
  match findSuspended s.suspended request with
  | none => (s, [], none)
  | some pathNotFound =>
    let currentPathNotFound := isPathNotFound curr
    let previousPathNotFound := isPathNotFound prev
    let oldPathNotFound := pathNotFound
    let newSuspended := s.suspended.map
      (fun qf => if qf.1 = request then (qf.1, currentPathNotFound) else qf)
    let s1 := { s with suspended := newSuspended }
    if (previousPathNotFound ∧ ¬ currentPathNotFound)
        ∨ (oldPathNotFound ∧ ¬ currentPathNotFound ∧ ¬ previousPathNotFound) then
      let event : FileChange := ⟨request.path, .ADDED, request.correlationId⟩
      let (s2, active) := resumeWatchRequest s1 request
      (s2, [event], some active)
    else
      (s1, [], none)

/-- `watch(requests)`: replace the request set, drop suspended entries no
longer watched, and re-run `updateWatchers`. -/
def watcherWatch (s : WatcherState) (requests : List WatchRequest) :
    WatcherState × List WatchRequest :=
  let s2 : WatcherState :=
    { allWatchRequests := requests,
      suspended := s.suspended.filter (fun qf => qf.1 ∈ requests) }
  (s2, activeRequests s2)

/-- `stop()`: dispose all suspended-request polling. -/
def watcherStop (s : WatcherState) : WatcherState :=
  { s with suspended := [] }

/-! ## Theorems for claim C5 -/

/-- A request removed from the suspended map stays unfindable. -/
theorem findSuspended_filter_ne (l : List (WatchRequest × Bool)) (r : WatchRequest) :
    findSuspended (l.filter (fun qf => qf.1 ≠ r)) r = none := by
  induction l with
  | nil => rfl
  | cons qf rest ih =>
    by_cases h : qf.1 = r
    · simpa [List.filter_cons, h] using ih
    · simpa [List.filter_cons, h, findSuspended] using ih

/-- A request appended to the suspended map is findable. -/
theorem findSuspended_append_self (l : List (WatchRequest × Bool)) (r : WatchRequest)
    (b : Bool) : (findSuspended (l ++ [(r, b)]) r).isSome = true := by
  induction l with
  | nil => simp [findSuspended]
  | cons qf rest ih =>
    by_cases h : qf.1 = r
    · simp [findSuspended, h]
    · simpa [findSuspended, h] using ih

/-- Claim C5: (a) a failing watch request without a numeric correlation id is
not suspended — state unchanged, no polling watch; (b) a failing
correlation-tracked request ends up suspended with a polling watch; (c) for a
suspended request, when the polled path transitions to found — from a
not-found previous sample, or via the rename pattern (monitor flag recorded
not-found while the previous sample already shows found) — exactly one ADDED
event carrying the request's correlation id fires, the request leaves the
suspended map (its polling watch is disposed), `doWatch` is re-run on the
active set which now contains the request, and a further poll tick fires
nothing. -/
theorem c5_watcher_suspend_resume :
    (∀ (s : WatcherState) (r : WatchRequest),
      isCorrelated r = false → handleDidWatchFail s r = (s, none)) ∧
    (∀ (s : WatcherState) (r : WatchRequest),
      isCorrelated r = true →
      (findSuspended (handleDidWatchFail s r).1.suspended r).isSome = true) ∧
    (∀ (s : WatcherState) (r : WatchRequest) (flag : Bool) (curr prev : JSStats),
      findSuspended s.suspended r = some flag →
      isPathNotFound curr = false →
      (isPathNotFound prev = true ∨ (flag = true ∧ isPathNotFound prev = false)) →
      (watchFileCallback s r curr prev).2.1
          = [⟨r.path, FileChangeType.ADDED, r.correlationId⟩] ∧
      findSuspended (watchFileCallback s r curr prev).1.suspended r = none ∧
      (watchFileCallback s r curr prev).2.2
          = some (activeRequests (watchFileCallback s r curr prev).1) ∧
      (r ∈ s.allWatchRequests →
        r ∈ activeRequests (watchFileCallback s r curr prev).1) ∧
      (watchFileCallback (watchFileCallback s r curr prev).1 r curr prev).2.1 = []) := by
  refine ⟨?_, ?_, ?_⟩
  · intro s r hc
    simp [handleDidWatchFail, hc]
  · intro s r hc
    simp only [handleDidWatchFail, hc, Bool.not_true, suspendWatchRequest,
      if_false, Bool.false_eq_true]
    by_cases hs : (findSuspended s.suspended r).isSome = true
    · rw [if_pos hs]
      exact hs
    · rw [if_neg hs]
      exact findSuspended_append_self _ r false
  · intro s r flag curr prev hfind hcurr hprev
    have hcond : (isPathNotFound prev ∧ ¬ isPathNotFound curr)
        ∨ (flag ∧ ¬ isPathNotFound curr ∧ ¬ isPathNotFound prev) := by
      rcases hprev with h | ⟨hf, h⟩
      · exact Or.inl (by simp [h, hcurr])
      · exact Or.inr (by simp [hf, hcurr, h])
    have hres : watchFileCallback s r curr prev
        = (⟨s.allWatchRequests,
            (s.suspended.map
              (fun qf => if qf.1 = r then (qf.1, isPathNotFound curr) else qf)).filter
              (fun qf => qf.1 ≠ r)⟩,
           [⟨r.path, FileChangeType.ADDED, r.correlationId⟩],
           some (activeRequests ⟨s.allWatchRequests,
            (s.suspended.map
              (fun qf => if qf.1 = r then (qf.1, isPathNotFound curr) else qf)).filter
              (fun qf => qf.1 ≠ r)⟩)) := by
      simp only [watchFileCallback, hfind, resumeWatchRequest, if_pos hcond]
    rw [hres]
    refine ⟨rfl, findSuspended_filter_ne _ r, rfl, ?_, ?_⟩
    · intro hmem
      simp only [activeRequests, List.mem_filter]
      refine ⟨hmem, ?_⟩
      rw [findSuspended_filter_ne]
      rfl
    · simp only [watchFileCallback]
      rw [findSuspended_filter_ne]

/-- Witness for claim C5: a non-correlated failing request is dropped; a
correlated one is suspended; a suspended correlated request whose path
appears (prev not-found, curr found) fires one ADDED event, is unsuspended
and returns to the active `doWatch` set. -/
theorem c5_watcher_suspend_resume_witness :
    (handleDidWatchFail ⟨[⟨"/p", none⟩], []⟩ ⟨"/p", none⟩
        = (⟨[⟨"/p", none⟩], []⟩, none)) ∧
    ((findSuspended (handleDidWatchFail ⟨[⟨"/q", some 7⟩], []⟩
        ⟨"/q", some 7⟩).1.suspended ⟨"/q", some 7⟩).isSome = true) ∧
    ((watchFileCallback ⟨[⟨"/q", some 7⟩], [(⟨"/q", some 7⟩, false)]⟩
          ⟨"/q", some 7⟩ ⟨5, 9⟩ ⟨0, 0⟩).2.1
        = [⟨"/q", FileChangeType.ADDED, some 7⟩] ∧
      findSuspended (watchFileCallback ⟨[⟨"/q", some 7⟩], [(⟨"/q", some 7⟩, false)]⟩
          ⟨"/q", some 7⟩ ⟨5, 9⟩ ⟨0, 0⟩).1.suspended ⟨"/q", some 7⟩ = none ∧
      (watchFileCallback ⟨[⟨"/q", some 7⟩], [(⟨"/q", some 7⟩, false)]⟩
          ⟨"/q", some 7⟩ ⟨5, 9⟩ ⟨0, 0⟩).2.2
        = some (activeRequests (watchFileCallback
            ⟨[⟨"/q", some 7⟩], [(⟨"/q", some 7⟩, false)]⟩
            ⟨"/q", some 7⟩ ⟨5, 9⟩ ⟨0, 0⟩).1) ∧
      (⟨"/q", some 7⟩ ∈ ([⟨"/q", some 7⟩] : List WatchRequest) →
        ⟨"/q", some 7⟩ ∈ activeRequests (watchFileCallback
            ⟨[⟨"/q", some 7⟩], [(⟨"/q", some 7⟩, false)]⟩
            ⟨"/q", some 7⟩ ⟨5, 9⟩ ⟨0, 0⟩).1) ∧
      (watchFileCallback (watchFileCallback
          ⟨[⟨"/q", some 7⟩], [(⟨"/q", some 7⟩, false)]⟩
          ⟨"/q", some 7⟩ ⟨5, 9⟩ ⟨0, 0⟩).1
          ⟨"/q", some 7⟩ ⟨5, 9⟩ ⟨0, 0⟩).2.1 = []) :=
  ⟨c5_watcher_suspend_resume.1 ⟨[⟨"/p", none⟩], []⟩ ⟨"/p", none⟩ (by decide),
   c5_watcher_suspend_resume.2.1 ⟨[⟨"/q", some 7⟩], []⟩ ⟨"/q", some 7⟩ (by decide),
   c5_watcher_suspend_resume.2.2 ⟨[⟨"/q", some 7⟩], [(⟨"/q", some 7⟩, false)]⟩
     ⟨"/q", some 7⟩ false ⟨5, 9⟩ ⟨0, 0⟩ (by decide) (by decide) (Or.inl (by decide))⟩

/-! ## `UtilityProcess` (second part of
`vs/platform/sharedProcess/electron-browser/sharedProcessWorkerService.ts`)

`start` validates through `validateCanStart` and then forks the child and
exchanges message ports.  We model the Electron environment (utility-process
support, window lookup) as an explicit parameter, the instance state as a
record, and the side effects of a successful start as an action list.
JS exceptions are `Except.error`. -/

structure BrowserWindowModel where
  destroyed : Bool
  webContentsDestroyed : Bool
  deriving Repr, DecidableEq

structure UtilityProcessElectronEnv where
  canUseUtilityProcess : Bool
  getWindowById : Int → Option BrowserWindowModel

structure UtilityProcessConfiguration where
  responseWindowId : Int
  responseChannel : String
  responseNonce : String
  type : String
  args : Option (List String)
  execArgv : Option (List String)
  allowLoadingUnsignedLibraries : Option Bool
  correlationId : Option String
  deriving Repr, DecidableEq

structure ForkedProcess where
  serviceName : String
  modulePath : String
  args : List String
  deriving Repr, DecidableEq

structure UtilityProcessState where
  id : String
  process : Option ForkedProcess
  processPid : Option Int
  configuration : Option UtilityProcessConfiguration
  didExit : Bool
  deriving Repr, DecidableEq

inductive UtilityProcessAction where
  | fork (serviceName : String) (modulePath : String) (args : List String)
  | sendPortToChild
  | sendPortToWindow (channel : String) (nonce : String)
  deriving Repr, DecidableEq

/-- `FileAccess.asFileUri('bootstrap-fork.js').fsPath`, kept symbolic. -/
def bootstrapForkModulePath : String := "bootstrap-fork.js"

/-- `validateCanStart`: throws when the platform lacks utility-process
support; logs and returns `undefined` (here `.ok none`) when a process is
already running or the requesting window is gone; otherwise yields the
window. -/
def validateCanStart (e : UtilityProcessElectronEnv) (s : UtilityProcessState)
    (configuration : UtilityProcessConfiguration) :
    Except String (Option BrowserWindowModel) :=
  if ¬ e.canUseUtilityProcess then
    .error "Cannot use UtilityProcess API from Electron!"
  else if s.process.isSome then
    .ok none
  else
    match e.getWindowById configuration.responseWindowId with
    | none => .ok none
    | some w =>
      if w.destroyed ∨ w.webContentsDestroyed then .ok none
      else .ok (some w)

/-- `start(configuration)`: validation, then fork with the computed service
name and argument list, then message-port exchange with the child and the
response window. -/
def utilityProcessStart (e : UtilityProcessElectronEnv) (s : UtilityProcessState)
    (configuration : UtilityProcessConfiguration) :
    Except String (UtilityProcessState × List UtilityProcessAction) :=
  match validateCanStart e s configuration with
  | .error msg => .error msg
  | .ok none => .ok (s, [])
  | .ok (some _w) =>
    let serviceName := configuration.type ++ "-" ++ s.id
    let modulePath := bootstrapForkModulePath
    let args := (configuration.args.getD []) ++ ["--type=" ++ configuration.type]
    let forked : ForkedProcess := ⟨serviceName, modulePath, args⟩
    .ok ({ s with configuration := some configuration, process := some forked },
      [.fork serviceName modulePath args, .sendPortToChild,
       .sendPortToWindow configuration.responseChannel configuration.responseNonce])

/-! ## Theorems for claim C2 -/

/-- Claim C2, counterexample: when the platform lacks utility-process
support, `start` does NOT log-and-return — `validateCanStart` throws, and the
exception escapes to the caller. -/
theorem c2_counterexample :
    utilityProcessStart ⟨false, fun _ => none⟩
        ⟨"1", none, none, none, false⟩
        ⟨1, "ch", "nonce", "worker", none, none, none, none⟩
      = .error "Cannot use UtilityProcess API from Electron!" := by
  rfl

/-- Claim C2 as amended: when the platform lacks utility-process support,
`start` throws (the exception escapes to the caller); in the other two
refusal cases — the instance already has a live process, or the requesting
window cannot be found or is destroyed — `start` logs the failure and
returns without spawning, leaving the instance's state unchanged. -/
theorem c2_start_refusal (e : UtilityProcessElectronEnv) (s : UtilityProcessState)
    (configuration : UtilityProcessConfiguration) :
    (e.canUseUtilityProcess = false →
      utilityProcessStart e s configuration
        = .error "Cannot use UtilityProcess API from Electron!") ∧
    (e.canUseUtilityProcess = true → s.process.isSome = true →
      utilityProcessStart e s configuration = .ok (s, [])) ∧
    (e.canUseUtilityProcess = true → s.process.isSome = false →
      (match e.getWindowById configuration.responseWindowId with
        | none => True
        | some w => w.destroyed = true ∨ w.webContentsDestroyed = true) →
      utilityProcessStart e s configuration = .ok (s, [])) := by
  refine ⟨?_, ?_, ?_⟩
  · intro hc
    simp [utilityProcessStart, validateCanStart, hc]
  · intro hc hp
    simp [utilityProcessStart, validateCanStart, hc, hp]
  · intro hc hp hw
    rcases hgw : e.getWindowById configuration.responseWindowId with _ | w
    · simp [utilityProcessStart, validateCanStart, hc, hp, hgw]
    · rw [hgw] at hw
      have hw2 : w.destroyed ∨ w.webContentsDestroyed := by
        rcases hw with h | h
        · exact Or.inl (by simp [h])
        · exact Or.inr (by simp [h])
      simp [utilityProcessStart, validateCanStart, hc, hp, hgw, hw2]

/-- Witness for claim C2 as amended, at concrete environments: no platform
support throws; a live process and a destroyed window both no-op with the
state unchanged. -/
theorem c2_start_refusal_witness :
    (utilityProcessStart ⟨false, fun _ => none⟩
        ⟨"1", none, none, none, false⟩
        ⟨1, "ch", "n", "worker", none, none, none, none⟩
      = .error "Cannot use UtilityProcess API from Electron!") ∧
    (utilityProcessStart ⟨true, fun _ => none⟩
        ⟨"1", some ⟨"w-1", bootstrapForkModulePath, []⟩, none, none, false⟩
        ⟨1, "ch", "n", "worker", none, none, none, none⟩
      = .ok (⟨"1", some ⟨"w-1", bootstrapForkModulePath, []⟩, none, none, false⟩, [])) ∧
    (utilityProcessStart ⟨true, fun _ => some ⟨true, false⟩⟩
        ⟨"1", none, none, none, false⟩
        ⟨1, "ch", "n", "worker", none, none, none, none⟩
      = .ok (⟨"1", none, none, none, false⟩, [])) :=
  ⟨(c2_start_refusal ⟨false, fun _ => none⟩ ⟨"1", none, none, none, false⟩
      ⟨1, "ch", "n", "worker", none, none, none, none⟩).1 rfl,
   (c2_start_refusal ⟨true, fun _ => none⟩
      ⟨"1", some ⟨"w-1", bootstrapForkModulePath, []⟩, none, none, false⟩
      ⟨1, "ch", "n", "worker", none, none, none, none⟩).2.1 rfl rfl,
   (c2_start_refusal ⟨true, fun _ => some ⟨true, false⟩⟩
      ⟨"1", none, none, none, false⟩
      ⟨1, "ch", "n", "worker", none, none, none, none⟩).2.2 rfl rfl (Or.inl rfl)⟩

/-! ## `vs/workbench/services/configuration/node/configurationEditingService.ts`
(first part: `ConfigurationEditingService`)

The injected services (schema registry, workspace context, editor service,
file service) and the format-preserving JSON edit (`vs/base/common/jsonEdit`,
not part of the supplied sources) are abstracted into a host record; the
claim concerns only the validation order and the absence of writes on
failure, which do not depend on them.  Configuration values are kept
opaque (as strings). -/

inductive ConfigurationTarget where
  | USER
  | WORKSPACE
  deriving Repr, DecidableEq

inductive ConfigurationEditingErrorCode where
  | ERROR_UNKNOWN_KEY
  | ERROR_INVALID_TARGET
  | ERROR_NO_WORKSPACE_OPENED
  | ERROR_INVALID_CONFIGURATION
  | ERROR_CONFIGURATION_FILE_DIRTY
  deriving Repr, DecidableEq

structure ConfigHost where
  /-- `getConfigurationKeys()` — the global configuration-schema registry. -/
  validKeys : List String
  /-- `contextService.getWorkspace()` is truthy. -/
  workspaceOpen : Bool
  /-- `contextService.toResource(relativePath)`. -/
  workspaceResource : String → String
  /-- `environmentService.appSettingsPath`. -/
  appSettingsPath : String
  /-- `editorService.createInput({resource}).isDirty()` per resource. -/
  isDirty : String → Bool
  /-- `existsFile` + `resolveContent`: the target file's contents, when it
  exists. -/
  fileContents : String → Option String
  /-- `json.parse(contents, parseErrors); parseErrors.length > 0`. -/
  parseHasErrors : String → Bool
  /-- `setProperty` + `applyEdits` (format-preserving structural edit). -/
  applyEdits : String → String → String → String
  /-- `JSON.stringify(value, null, indent)` for whole-file replacement. -/
  stringifyValue : String → String

def WORKSPACE_STANDALONE_CONFIGURATIONS : List (String × String) :=
  [("tasks", ".vscode/tasks.json"), ("launch", ".vscode/launch.json")]

def WORKSPACE_CONFIG_DEFAULT_PATH : String := ".vscode/settings.json"

structure ConfigurationEditOperation where
  key : String
  value : String
  target : String
  isWorkspaceStandalone : Bool
  deriving Repr, DecidableEq

/-- The standalone-configurations loop of `getConfigurationEditOperation`:
exact key match routes to the dedicated file with an empty key (whole-file
replacement); a `prefix.subkey` match routes there with the prefix
stripped. -/
def findStandaloneOp (h : ConfigHost) (key value : String) :
    List (String × String) → Option ConfigurationEditOperation
  | [] => none
  | (k, path) :: rest =>
    if key = k then
      some ⟨"", value, h.workspaceResource path, true⟩
    else if (k ++ ".").data.isPrefixOf key.data then
      some ⟨⟨key.data.drop (k ++ ".").data.length⟩, value, h.workspaceResource path, true⟩
    else
      findStandaloneOp h key value rest

/-- `getConfigurationEditOperation`. -/
def getConfigurationEditOperation (h : ConfigHost) (target : ConfigurationTarget)
    (key value : String) : ConfigurationEditOperation :=
  let standalone :=
    if key ≠ "" then findStandaloneOp h key value WORKSPACE_STANDALONE_CONFIGURATIONS
    else none
  match standalone with
  | some op => op
  | none =>
    if target = .USER then ⟨key, value, h.appSettingsPath, false⟩
    else ⟨key, value, h.workspaceResource WORKSPACE_CONFIG_DEFAULT_PATH, false⟩

structure IValidationResult where
  error : Option ConfigurationEditingErrorCode
  fileExists : Bool
  contents : String
  deriving Repr, DecidableEq

/-- `validate`, with the code's short-circuit order: unknown key (for
non-standalone), standalone-to-User, Workspace without workspace, dirty
file, then JSON parse errors (skipped for whole-file standalone
replacements). -/
def validate (h : ConfigHost) (target : ConfigurationTarget)
    (operation : ConfigurationEditOperation) : IValidationResult :=
  if ¬ operation.isWorkspaceStandalone ∧ operation.key ∉ h.validKeys then
    ⟨some .ERROR_UNKNOWN_KEY, false, ""⟩
  else if operation.isWorkspaceStandalone ∧ target = .USER then
    ⟨some .ERROR_INVALID_TARGET, false, ""⟩
  else if target = .WORKSPACE ∧ ¬ h.workspaceOpen then
    ⟨some .ERROR_NO_WORKSPACE_OPENED, false, ""⟩
  else if h.isDirty operation.target then
    ⟨some .ERROR_CONFIGURATION_FILE_DIRTY, false, ""⟩
  else
    match h.fileContents operation.target with
    | none => ⟨none, false, ""⟩
    | some contents =>
      if operation.isWorkspaceStandalone ∧ operation.key = "" then
        ⟨none, true, contents⟩
      else if h.parseHasErrors contents then
        ⟨some .ERROR_INVALID_CONFIGURATION, false, ""⟩
      else
        ⟨none, true, contents⟩

/-- `applyEdits` of the service: whole-file replacement when no key is
given, else a single-property structural edit. -/
def serviceApplyEdits (h : ConfigHost) (content : String)
    (edit : ConfigurationEditOperation) : String :=
  if edit.key = "" then h.stringifyValue edit.value
  else h.applyEdits content edit.key edit.value

/-- `writeConfiguration`: validate first; on a validation error, fail with
that code and perform no write.  Otherwise create the file with `\x7b\x7d`
when missing, then rewrite it with the edited contents.  The second
component lists the `updateContent` calls (resource, new contents) in
order. -/
def writeConfiguration (h : ConfigHost) (target : ConfigurationTarget)
    (key value : String) :
    Option ConfigurationEditingErrorCode × List (String × String) :=
  let operation := getConfigurationEditOperation h target key value
  let validation := validate h target operation
  match validation.error with
  | some code => (some code, [])
  | none =>
    let contents := if ¬ validation.fileExists then "{}" else validation.contents
    let createWrites := if ¬ validation.fileExists then [(operation.target, "{}")] else []
    let result := serviceApplyEdits h contents operation
    (none, createWrites ++ [(operation.target, result)])

/-! ## Theorems for claim C3 -/

/-- A sample host for the witness: one known key, no workspace open, a dirty
user settings file whose contents do not parse. -/
def sampleConfigHost : ConfigHost :=
  { validKeys := ["editor.fontSize"],
    workspaceOpen := false,
    workspaceResource := fun p => "/ws/" ++ p,
    appSettingsPath := "/user/settings.json",
    isDirty := fun r => r == "/user/settings.json",
    fileContents := fun _ => some "x",
    parseHasErrors := fun c => c == "x",
    applyEdits := fun c _ _ => c,
    stringifyValue := fun v => v }

/-- Claim C3: `writeConfiguration` validates in the fixed order (1) unknown
key for non-standalone edits, (2) standalone edit targeting User scope,
(3) Workspace-scope edit with no workspace open, (4) dirty target file,
(5) JSON parse errors in an existing target file unless the edit is a
whole-file standalone replacement — each short-circuiting with its specific
error code — and a failing validation performs no `updateContent` call. -/
theorem c3_validation_order (h : ConfigHost) (target : ConfigurationTarget) (key value : String) :
    ((getConfigurationEditOperation h target key value).isWorkspaceStandalone = false →
      (getConfigurationEditOperation h target key value).key ∉ h.validKeys →
      writeConfiguration h target key value
        = (some ConfigurationEditingErrorCode.ERROR_UNKNOWN_KEY, [])) ∧
    ((getConfigurationEditOperation h target key value).isWorkspaceStandalone = true →
      target = ConfigurationTarget.USER →
      writeConfiguration h target key value
        = (some ConfigurationEditingErrorCode.ERROR_INVALID_TARGET, [])) ∧
    (((getConfigurationEditOperation h target key value).isWorkspaceStandalone = false →
        (getConfigurationEditOperation h target key value).key ∈ h.validKeys) →
      ¬ ((getConfigurationEditOperation h target key value).isWorkspaceStandalone = true
          ∧ target = ConfigurationTarget.USER) →
      target = ConfigurationTarget.WORKSPACE →
      h.workspaceOpen = false →
      writeConfiguration h target key value
        = (some ConfigurationEditingErrorCode.ERROR_NO_WORKSPACE_OPENED, [])) ∧
    (((getConfigurationEditOperation h target key value).isWorkspaceStandalone = false →
        (getConfigurationEditOperation h target key value).key ∈ h.validKeys) →
      ¬ ((getConfigurationEditOperation h target key value).isWorkspaceStandalone = true
          ∧ target = ConfigurationTarget.USER) →
      ¬ (target = ConfigurationTarget.WORKSPACE ∧ h.workspaceOpen = false) →
      h.isDirty (getConfigurationEditOperation h target key value).target = true →
      writeConfiguration h target key value
        = (some ConfigurationEditingErrorCode.ERROR_CONFIGURATION_FILE_DIRTY, [])) ∧
    (∀ contents : String,
      ((getConfigurationEditOperation h target key value).isWorkspaceStandalone = false →
        (getConfigurationEditOperation h target key value).key ∈ h.validKeys) →
      ¬ ((getConfigurationEditOperation h target key value).isWorkspaceStandalone = true
          ∧ target = ConfigurationTarget.USER) →
      ¬ (target = ConfigurationTarget.WORKSPACE ∧ h.workspaceOpen = false) →
      h.isDirty (getConfigurationEditOperation h target key value).target = false →
      h.fileContents (getConfigurationEditOperation h target key value).target
        = some contents →
      ¬ ((getConfigurationEditOperation h target key value).isWorkspaceStandalone = true
          ∧ (getConfigurationEditOperation h target key value).key = "") →
      h.parseHasErrors contents = true →
      writeConfiguration h target key value
        = (some ConfigurationEditingErrorCode.ERROR_INVALID_CONFIGURATION, [])) ∧
    (∀ code, (writeConfiguration h target key value).1 = some code →
      (writeConfiguration h target key value).2 = []) := by
  refine ⟨?_, ?_, ?_, ?_, ?_, ?_⟩
  · intro hsa hk
    have hc : ¬ ((getConfigurationEditOperation h target key value).isWorkspaceStandalone = true)
        ∧ (getConfigurationEditOperation h target key value).key ∉ h.validKeys :=
      ⟨by simp [hsa], hk⟩
    simp only [writeConfiguration, validate, if_pos hc]
  · intro hsa ht
    have hc1 : ¬ (¬ ((getConfigurationEditOperation h target key value).isWorkspaceStandalone = true)
        ∧ (getConfigurationEditOperation h target key value).key ∉ h.validKeys) := by
      simp [hsa]
    have hc2 : (getConfigurationEditOperation h target key value).isWorkspaceStandalone = true
        ∧ target = ConfigurationTarget.USER := ⟨hsa, ht⟩
    simp only [writeConfiguration, validate, if_neg hc1, if_pos hc2]
  · intro hk hnot ht hw
    have hc1 : ¬ (¬ ((getConfigurationEditOperation h target key value).isWorkspaceStandalone = true)
        ∧ (getConfigurationEditOperation h target key value).key ∉ h.validKeys) := by
      by_cases hs : (getConfigurationEditOperation h target key value).isWorkspaceStandalone = true
      · simp [hs]
      · have := hk (by simpa using hs)
        simp [this]
    have hc3 : target = ConfigurationTarget.WORKSPACE ∧ ¬ (h.workspaceOpen = true) := by
      exact ⟨ht, by simp [hw]⟩
    simp only [writeConfiguration, validate, if_neg hc1, if_neg hnot, if_pos hc3]
  · intro hk hnot hw hd
    have hc1 : ¬ (¬ ((getConfigurationEditOperation h target key value).isWorkspaceStandalone = true)
        ∧ (getConfigurationEditOperation h target key value).key ∉ h.validKeys) := by
      by_cases hs : (getConfigurationEditOperation h target key value).isWorkspaceStandalone = true
      · simp [hs]
      · have := hk (by simpa using hs)
        simp [this]
    have hc3 : ¬ (target = ConfigurationTarget.WORKSPACE ∧ ¬ (h.workspaceOpen = true)) := by
      intro hc
      exact hw ⟨hc.1, by simpa using hc.2⟩
    simp only [writeConfiguration, validate, if_neg hc1, if_neg hnot, if_neg hc3, if_pos hd]
  · intro contents hk hnot hw hd hf hns hp
    have hc1 : ¬ (¬ ((getConfigurationEditOperation h target key value).isWorkspaceStandalone = true)
        ∧ (getConfigurationEditOperation h target key value).key ∉ h.validKeys) := by
      by_cases hs : (getConfigurationEditOperation h target key value).isWorkspaceStandalone = true
      · simp [hs]
      · have := hk (by simpa using hs)
        simp [this]
    have hc3 : ¬ (target = ConfigurationTarget.WORKSPACE ∧ ¬ (h.workspaceOpen = true)) := by
      intro hc
      exact hw ⟨hc.1, by simpa using hc.2⟩
    have hd2 : ¬ (h.isDirty (getConfigurationEditOperation h target key value).target = true) := by
      simp [hd]
    simp only [writeConfiguration, validate, if_neg hc1, if_neg hnot, if_neg hc3, if_neg hd2,
      hf, if_neg hns, if_pos hp]
  · intro code hcode
    rcases hv : (validate h target (getConfigurationEditOperation h target key value)).error with _ | c
    · simp only [writeConfiguration, hv] at hcode
      exact Option.noConfusion hcode
    · simp only [writeConfiguration, hv]

/-- Witness for claim C3: an unknown key to User scope fails with
`ERROR_UNKNOWN_KEY`; a standalone `tasks` edit to User scope fails with
`ERROR_INVALID_TARGET`; a known key against a dirty file fails with
`ERROR_CONFIGURATION_FILE_DIRTY`; all without any write. -/
theorem c3_validation_order_witness :
    (writeConfiguration sampleConfigHost ConfigurationTarget.USER "unknown.key" "v"
      = (some ConfigurationEditingErrorCode.ERROR_UNKNOWN_KEY, [])) ∧
    (writeConfiguration sampleConfigHost ConfigurationTarget.USER "tasks" "v"
      = (some ConfigurationEditingErrorCode.ERROR_INVALID_TARGET, [])) ∧
    (writeConfiguration sampleConfigHost ConfigurationTarget.USER "editor.fontSize" "v"
      = (some ConfigurationEditingErrorCode.ERROR_CONFIGURATION_FILE_DIRTY, [])) :=
  ⟨(c3_validation_order sampleConfigHost ConfigurationTarget.USER "unknown.key" "v").1
      (by decide) (by decide),
   (c3_validation_order sampleConfigHost ConfigurationTarget.USER "tasks" "v").2.1
      (by decide) rfl,
   (c3_validation_order sampleConfigHost ConfigurationTarget.USER "editor.fontSize" "v").2.2.2.1
      (fun _ => by decide) (by decide) (by decide) (by decide)⟩

/-! ## `FileService2.doMoveCopy` / `doValidateMoveCopy`
(second part of the `configurationEditingService.ts` source file)

Same-provider move/copy.  Resources are `\x7b scheme, path segments \x7d`;
providers carry their capability flags and the set of existing resources.
Mutating provider calls are recorded as a trace; a rejection is
`Except.error`, and by the code's control flow no mutating call precedes
validation. -/

structure ResourceURI where
  scheme : String
  path : List String
  deriving Repr, DecidableEq

/-- Lower-casing of one path segment. -/
def caseFold (s : String) : String := ⟨s.data.map Char.toLower⟩

/-- Modelled from the spec: `vs/base/common/resources` equality helpers are
not part of the supplied sources.  The spec describes move/copy validation in
terms of "pure case-rename" equality and a source-is-ancestor-of-target
check, so URIs compare by scheme and path segments, case-insensitively when
requested. -/
def uriKey (ignoreCase : Bool) (r : ResourceURI) : ResourceURI :=
  if ignoreCase then ⟨r.scheme, r.path.map caseFold⟩ else r

/-- Modelled from the spec: `isEqual(a, b, ignoreCase)`. -/
def isEqualURI (a b : ResourceURI) (ignoreCase : Bool) : Bool :=
  uriKey ignoreCase a = uriKey ignoreCase b

/-- Modelled from the spec: `isEqualOrParent(base, candidate, ignoreCase)` —
`candidate` equals `base` or is an ancestor of it. -/
def isEqualOrParentURI (base candidate : ResourceURI) (ignoreCase : Bool) : Bool :=
  (uriKey ignoreCase candidate).scheme = (uriKey ignoreCase base).scheme
    ∧ (uriKey ignoreCase candidate).path.isPrefixOf (uriKey ignoreCase base).path

/-- `dirname(resource)`. -/
def dirnameURI (r : ResourceURI) : ResourceURI := ⟨r.scheme, r.path.dropLast⟩

structure FSProvider where
  pathCaseSensitive : Bool
  hasFileFolderCopy : Bool
  hasOpenReadWriteClose : Bool
  hasReadWrite : Bool
  files : List ResourceURI
  deriving Repr, DecidableEq

/-- `this.existsFile(target)` — resolves through the provider, so a
case-insensitive provider also finds case-variants. -/
def existsResource (p : FSProvider) (t : ResourceURI) : Bool :=
  p.files.any (fun f => isEqualURI f t (! p.pathCaseSensitive))

inductive MoveCopyError where
  /-- `unableToMoveCopyError1`: source path equal to or parent of target. -/
  | sourceIsParentOfTarget
  /-- `unableToMoveCopyError2` with `FILE_MOVE_CONFLICT`. -/
  | moveConflict
  /-- `unableToMoveCopyError3`: target is a parent of the source. -/
  | wouldReplaceParent
  /-- `Provider neither has FileReadWrite nor FileOpenReadWriteClose...`. -/
  | insufficientCapability
  deriving Repr, DecidableEq

inductive MoveCopyMode where
  | move
  | copy
  deriving Repr, DecidableEq

/-- One mutating (or legacy-delegated) provider interaction of
`doMoveCopy`. -/
inductive FileOp where
  | del (r : ResourceURI)
  | mkdirp (r : ResourceURI)
  | rename (s t : ResourceURI) (overwrite : Bool)
  | copyNative (s t : ResourceURI) (overwrite : Bool)
  | copyLegacy (s t : ResourceURI) (overwrite : Bool)
  | copyViaReadWrite (s t : ResourceURI) (overwrite : Bool)
  deriving Repr, DecidableEq

/-- `doValidateMoveCopy`: reject when the source is equal to or an ancestor
of the target (unless the pair is a pure case-rename on a case-insensitive
provider); when the target exists and is no case-rename, reject without
`overwrite` as a move conflict, and reject with `overwrite` when deleting the
target would delete the source. -/
def doValidateMoveCopy (provider : FSProvider) (source target : ResourceURI)
    (overwrite : Bool) : Except MoveCopyError (Bool × Bool) :=
  let isPathCaseSensitive := provider.pathCaseSensitive
  let isCaseChange := if isPathCaseSensitive then false else isEqualURI source target true
  if ¬ isCaseChange ∧ isEqualOrParentURI target source (! isPathCaseSensitive) then
    .error .sourceIsParentOfTarget
  else
    let exists_ := existsResource provider target
    if exists_ ∧ ¬ isCaseChange then
      if ¬ overwrite then .error .moveConflict
      else if isEqualOrParentURI source target (! isPathCaseSensitive) then
        .error .wouldReplaceParent
      else .ok (exists_, isCaseChange)
    else .ok (exists_, isCaseChange)

/-- `doMoveCopy`: validate, delete the target when needed, create parent
folders, then rename (move) or copy by the best available capability.  The
result pairs the executed provider mutations (in order) with the error, if
any: a validation rejection executes nothing, while the
insufficient-capability rejection of the copy path happens only after the
delete and `mkdirp` already ran. -/
def doMoveCopy (provider : FSProvider) (source target : ResourceURI)
    (mode : MoveCopyMode) (overwrite : Bool) : List FileOp × Option MoveCopyError :=
  match doValidateMoveCopy provider source target overwrite with
  | .error e => ([], some e)
  | .ok (exists_, isCaseChange) =>
    let delOps := if exists_ ∧ ¬ isCaseChange ∧ overwrite then [FileOp.del target] else []
    let mkOps := [FileOp.mkdirp (dirnameURI target)]
    match mode with
    | .copy =>
      if provider.hasFileFolderCopy then
        (delOps ++ mkOps ++ [FileOp.copyNative source target overwrite], none)
      else if provider.hasOpenReadWriteClose then
        (delOps ++ mkOps ++ [FileOp.copyLegacy source target overwrite], none)
      else if provider.hasReadWrite then
        (delOps ++ mkOps ++ [FileOp.copyViaReadWrite source target overwrite], none)
      else
        (delOps ++ mkOps, some .insufficientCapability)
    | .move =>
      (delOps ++ mkOps ++ [FileOp.rename source target overwrite], none)

/-! ## Theorems for claim C6 -/

/-- Inversion of a successful `doValidateMoveCopy`: the payload is the
computed existence and case-rename flags. -/
theorem doValidateMoveCopy_ok (provider : FSProvider) (source target : ResourceURI)
    (overwrite : Bool) (ex icc : Bool)
    (h : doValidateMoveCopy provider source target overwrite = .ok (ex, icc)) :
    ex = existsResource provider target
      ∧ icc = (if provider.pathCaseSensitive then false else isEqualURI source target true) := by
  simp only [doValidateMoveCopy] at h
  repeat' split at h
  all_goals simp_all

/-- Claim C6: same-provider move/copy (1) rejects with no provider mutation
when the source equals or is an ancestor of the target, unless the pair is a
pure case-rename on a case-insensitive provider; (2) rejects with a
move-conflict error when the target exists (and is no case-rename) and
overwrite is not requested; (3) rejects instead of deleting when overwrite is
requested but the target is a parent of the source; (4) with overwrite
requested on an existing target it deletes the target first; and (5) a delete
of the target only ever happens when the target exists, is no case-rename,
and overwrite was requested. -/
theorem c6_move_copy_guard (provider : FSProvider) (source target : ResourceURI)
    (mode : MoveCopyMode) (overwrite : Bool) :
    ((if provider.pathCaseSensitive then false else isEqualURI source target true) = false →
      isEqualOrParentURI target source (! provider.pathCaseSensitive) = true →
      doMoveCopy provider source target mode overwrite
        = ([], some MoveCopyError.sourceIsParentOfTarget)) ∧
    ((if provider.pathCaseSensitive then false else isEqualURI source target true) = false →
      isEqualOrParentURI target source (! provider.pathCaseSensitive) = false →
      existsResource provider target = true →
      overwrite = false →
      doMoveCopy provider source target mode overwrite
        = ([], some MoveCopyError.moveConflict)) ∧
    ((if provider.pathCaseSensitive then false else isEqualURI source target true) = false →
      isEqualOrParentURI target source (! provider.pathCaseSensitive) = false →
      existsResource provider target = true →
      overwrite = true →
      isEqualOrParentURI source target (! provider.pathCaseSensitive) = true →
      doMoveCopy provider source target mode overwrite
        = ([], some MoveCopyError.wouldReplaceParent)) ∧
    ((if provider.pathCaseSensitive then false else isEqualURI source target true) = false →
      isEqualOrParentURI target source (! provider.pathCaseSensitive) = false →
      existsResource provider target = true →
      overwrite = true →
      isEqualOrParentURI source target (! provider.pathCaseSensitive) = false →
      (doMoveCopy provider source target mode overwrite).1.head?
        = some (FileOp.del target)) ∧
    (∀ (ops : List FileOp) (err : Option MoveCopyError),
      doMoveCopy provider source target mode overwrite = (ops, err) →
      FileOp.del target ∈ ops →
      existsResource provider target = true
        ∧ (if provider.pathCaseSensitive then false else isEqualURI source target true) = false
        ∧ overwrite = true) := by
  refine ⟨?_, ?_, ?_, ?_, ?_⟩
  · intro hicc hpar
    have hc : ¬ ((if provider.pathCaseSensitive then false
          else isEqualURI source target true) = true)
        ∧ isEqualOrParentURI target source (! provider.pathCaseSensitive) = true :=
      ⟨by simp [hicc], hpar⟩
    simp only [doMoveCopy, doValidateMoveCopy, if_pos hc]
  · intro hicc hpar hex hov
    have hc1 : ¬ (¬ ((if provider.pathCaseSensitive then false
          else isEqualURI source target true) = true)
        ∧ isEqualOrParentURI target source (! provider.pathCaseSensitive) = true) := by
      simp [hpar]
    have hc2 : existsResource provider target = true
        ∧ ¬ ((if provider.pathCaseSensitive then false
          else isEqualURI source target true) = true) := ⟨hex, by simp [hicc]⟩
    have hc3 : ¬ (overwrite = true) := by simp [hov]
    simp only [doMoveCopy, doValidateMoveCopy, if_neg hc1, if_pos hc2, if_pos hc3]
  · intro hicc hpar hex hov hpar2
    have hc1 : ¬ (¬ ((if provider.pathCaseSensitive then false
          else isEqualURI source target true) = true)
        ∧ isEqualOrParentURI target source (! provider.pathCaseSensitive) = true) := by
      simp [hpar]
    have hc2 : existsResource provider target = true
        ∧ ¬ ((if provider.pathCaseSensitive then false
          else isEqualURI source target true) = true) := ⟨hex, by simp [hicc]⟩
    have hc3 : ¬ (¬ (overwrite = true)) := by simp [hov]
    simp only [doMoveCopy, doValidateMoveCopy, if_neg hc1, if_pos hc2, if_neg hc3,
      if_pos hpar2]
  · intro hicc hpar hex hov hpar2
    have hc1 : ¬ (¬ ((if provider.pathCaseSensitive then false
          else isEqualURI source target true) = true)
        ∧ isEqualOrParentURI target source (! provider.pathCaseSensitive) = true) := by
      simp [hpar]
    have hc2 : existsResource provider target = true
        ∧ ¬ ((if provider.pathCaseSensitive then false
          else isEqualURI source target true) = true) := ⟨hex, by simp [hicc]⟩
    have hc3 : ¬ (¬ (overwrite = true)) := by simp [hov]
    have hc4 : ¬ (isEqualOrParentURI source target (! provider.pathCaseSensitive) = true) := by
      simp [hpar2]
    have hdel : existsResource provider target = true
        ∧ ¬ ((if provider.pathCaseSensitive then false
          else isEqualURI source target true) = true) ∧ overwrite = true :=
      ⟨hex, by simp [hicc], hov⟩
    simp only [doMoveCopy, doValidateMoveCopy, if_neg hc1, if_pos hc2, if_neg hc3,
      if_neg hc4, if_pos hdel]
    rcases mode with _ | _
    · rfl
    · split_ifs <;> rfl
  · intro ops err heq hmem
    rcases hval : doValidateMoveCopy provider source target overwrite with e | ⟨ex, icc⟩
    · rw [doMoveCopy, hval] at heq
      cases heq
      simp at hmem
    · obtain ⟨hex2, hicc2⟩ := doValidateMoveCopy_ok _ _ _ _ _ _ hval
      rw [doMoveCopy, hval] at heq
      by_cases hcond : ex = true ∧ ¬ (icc = true) ∧ overwrite = true
      · refine ⟨?_, ?_, hcond.2.2⟩
        · rw [← hex2]
          exact hcond.1
        · rw [← hicc2]
          simpa using hcond.2.1
      · exfalso
        rcases mode with _ | _ <;>
          (dsimp only at heq; rw [if_neg hcond] at heq) <;>
          first
            | (cases heq; simp at hmem)
            | (split_ifs at heq <;> (cases heq; simp at hmem))


/-- Witness for claim C6 on a case-sensitive provider with an existing
`/b`: moving `/a` onto `/a/sub` rejects as source-is-parent; moving `/a` onto
`/b` without overwrite is a move conflict; moving `/b/x` onto `/b` with
overwrite rejects rather than deleting; moving `/a` onto `/b` with overwrite
deletes `/b` first. -/
theorem c6_move_copy_guard_witness :
    (doMoveCopy ⟨true, false, false, true, [⟨"file", ["b"]⟩]⟩
        ⟨"file", ["a"]⟩ ⟨"file", ["a", "sub"]⟩ MoveCopyMode.move false
      = ([], some MoveCopyError.sourceIsParentOfTarget)) ∧
    (doMoveCopy ⟨true, false, false, true, [⟨"file", ["b"]⟩]⟩
        ⟨"file", ["a"]⟩ ⟨"file", ["b"]⟩ MoveCopyMode.move false
      = ([], some MoveCopyError.moveConflict)) ∧
    (doMoveCopy ⟨true, false, false, true, [⟨"file", ["b"]⟩]⟩
        ⟨"file", ["b", "x"]⟩ ⟨"file", ["b"]⟩ MoveCopyMode.move true
      = ([], some MoveCopyError.wouldReplaceParent)) ∧
    ((doMoveCopy ⟨true, false, false, true, [⟨"file", ["b"]⟩]⟩
        ⟨"file", ["a"]⟩ ⟨"file", ["b"]⟩ MoveCopyMode.move true).1.head?
      = some (FileOp.del ⟨"file", ["b"]⟩)) :=
  ⟨(c6_move_copy_guard ⟨true, false, false, true, [⟨"file", ["b"]⟩]⟩
      ⟨"file", ["a"]⟩ ⟨"file", ["a", "sub"]⟩ MoveCopyMode.move false).1
      (by decide) (by decide),
   (c6_move_copy_guard ⟨true, false, false, true, [⟨"file", ["b"]⟩]⟩
      ⟨"file", ["a"]⟩ ⟨"file", ["b"]⟩ MoveCopyMode.move false).2.1
      (by decide) (by decide) (by decide) rfl,
   (c6_move_copy_guard ⟨true, false, false, true, [⟨"file", ["b"]⟩]⟩
      ⟨"file", ["b", "x"]⟩ ⟨"file", ["b"]⟩ MoveCopyMode.move true).2.2.1
      (by decide) (by decide) (by decide) rfl (by decide),
   (c6_move_copy_guard ⟨true, false, false, true, [⟨"file", ["b"]⟩]⟩
      ⟨"file", ["a"]⟩ ⟨"file", ["b"]⟩ MoveCopyMode.move true).2.2.2.1
      (by decide) (by decide) (by decide) rfl (by decide)⟩

/-! ## A JSON model (`JSON.parse` / `JSON.stringify`)

Used by the multi-diff source resolver (claim C8) and the node NLS resolver
(claim C4).  JSON numbers are kept as their lexemes: the embedded code only
ever observes their `typeof`, never their numeric value.  One deliberate
deviation: JavaScript strings tolerate lone UTF-16 surrogates, Lean strings
cannot, so a lone `\uXXXX` surrogate escape decodes to U+FFFD; no claim
depends on such inputs. -/

inductive JSValue where
  | null
  | boolean (b : Bool)
  | num (lexeme : String)
  | str (s : String)
  | arr (elements : List JSValue)
  | obj (fields : List (String × JSValue))

/-- Lowercase hex digit, as `JSON.stringify` emits in `\u00XX` escapes. -/
def hexDigit (n : Nat) : Char :=
  if n < 10 then Char.ofNat ('0'.toNat + n) else Char.ofNat ('a'.toNat + n - 10)

/-- `JSON.stringify` escaping of one character inside a string literal. -/
def escapeJSONChar (c : Char) : List Char :=
  if c = '"' then ['\\', '"']
  else if c = '\\' then ['\\', '\\']
  else if c = '\x08' then ['\\', 'b']
  else if c = '\x0c' then ['\\', 'f']
  else if c = '\n' then ['\\', 'n']
  else if c = '\r' then ['\\', 'r']
  else if c = '\t' then ['\\', 't']
  else if c.toNat < 0x20 then
    ['\\', 'u', '0', '0', hexDigit (c.toNat / 16), hexDigit (c.toNat % 16)]
  else [c]

/-- `JSON.stringify` of a string value. -/
def quoteJSONString (s : String) : String :=
  ⟨'"' :: (s.data.flatMap escapeJSONChar ++ ['"'])⟩

/-- Value of one hex digit (`\uXXXX` escapes accept both cases). -/
def hexVal (c : Char) : Option Nat :=
  if '0' ≤ c ∧ c ≤ '9' then some (c.toNat - '0'.toNat)
  else if 'a' ≤ c ∧ c ≤ 'f' then some (c.toNat - 'a'.toNat + 10)
  else if 'A' ≤ c ∧ c ≤ 'F' then some (c.toNat - 'A'.toNat + 10)
  else none

/-- UTF-16 code units of one character (JS strings are code-unit
sequences). -/
def utf16Units (c : Char) : List Nat :=
  if c.toNat < 0x10000 then [c.toNat]
  else [0xD800 + (c.toNat - 0x10000) / 0x400, 0xDC00 + (c.toNat - 0x10000) % 0x400]

/-- Decoded unit of a single-character escape (`\\x` for `x` in
`" \\ / b f n r t`). -/
def escapeUnit (e : Char) : Option Nat :=
  if e = '"' then some 0x22
  else if e = '\\' then some 0x5C
  else if e = '/' then some 0x2F
  else if e = 'b' then some 0x08
  else if e = 'f' then some 0x0C
  else if e = 'n' then some 0x0A
  else if e = 'r' then some 0x0D
  else if e = 't' then some 0x09
  else none

/-- JSON string-literal body (after the opening quote), as UTF-16 code
units: returns the decoded units and the input following the closing
quote. -/
def parseStringBodyUnits : List Char → Option (List Nat × List Char)
  | [] => none
  | c :: rest =>
    if c = '"' then some ([], rest)
    else if c = '\\' then
      match rest with
      | [] => none
      | e :: rest2 =>
        if e = 'u' then
          match rest2 with
          | h1 :: h2 :: h3 :: h4 :: rest3 =>
            match hexVal h1, hexVal h2, hexVal h3, hexVal h4 with
            | some a, some b, some c2, some d =>
              (parseStringBodyUnits rest3).map
                (fun p => ((((a * 16 + b) * 16 + c2) * 16 + d) :: p.1, p.2))
            | _, _, _, _ => none
          | _ => none
        else
          match escapeUnit e with
          | some u => (parseStringBodyUnits rest2).map (fun p => (u :: p.1, p.2))
          | none => none
    else if c.toNat < 0x20 then none
    else (parseStringBodyUnits rest).map (fun p => (utf16Units c ++ p.1, p.2))

/-- UTF-16 code units back to characters: a well-formed surrogate pair
combines into one code point; a lone surrogate — representable in a JS
string but not in a Lean one — becomes U+FFFD (documented deviation). -/
def unitsToChars : List Nat → List Char
  | [] => []
  | u :: rest =>
    if 0xD800 ≤ u ∧ u ≤ 0xDBFF then
      match rest with
      | u2 :: rest2 =>
        if 0xDC00 ≤ u2 ∧ u2 ≤ 0xDFFF then
          Char.ofNat (0x10000 + (u - 0xD800) * 0x400 + (u2 - 0xDC00)) :: unitsToChars rest2
        else '\uFFFD' :: unitsToChars (u2 :: rest2)
      | [] => ['\uFFFD']
    else if 0xDC00 ≤ u ∧ u ≤ 0xDFFF then '\uFFFD' :: unitsToChars rest
    else Char.ofNat u :: unitsToChars rest

/-- JSON string-literal body (after the opening quote). -/
def parseStringBody (s : List Char) : Option (List Char × List Char) :=
  (parseStringBodyUnits s).map (fun p => (unitsToChars p.1, p.2))

/-- JSON whitespace. -/
def isJSONWhitespace (c : Char) : Bool :=
  c = ' ' ∨ c = '\t' ∨ c = '\n' ∨ c = '\r'

def skipWS (s : List Char) : List Char := s.dropWhile isJSONWhitespace

/-- One or more digits. -/
def digits1 (s : List Char) : Option (List Char × List Char) :=
  match s.takeWhile Char.isDigit with
  | [] => none
  | ds => some (ds, s.dropWhile Char.isDigit)

/-- JSON `int` production (after the optional sign). -/
def parseIntPart : List Char → Option (List Char × List Char)
  | [] => none
  | '0' :: r => some (['0'], r)
  | c :: r =>
    if c.isDigit then some (c :: r.takeWhile Char.isDigit, r.dropWhile Char.isDigit)
    else none

/-- JSON `frac` production (empty when absent). -/
def parseFracPart : List Char → Option (List Char × List Char)
  | '.' :: r => (digits1 r).map (fun p => ('.' :: p.1, p.2))
  | s => some ([], s)

/-- JSON `exp` production (empty when absent). -/
def parseExpPart : List Char → Option (List Char × List Char)
  | 'e' :: '+' :: r => (digits1 r).map (fun p => ('e' :: '+' :: p.1, p.2))
  | 'e' :: '-' :: r => (digits1 r).map (fun p => ('e' :: '-' :: p.1, p.2))
  | 'e' :: r => (digits1 r).map (fun p => ('e' :: p.1, p.2))
  | 'E' :: '+' :: r => (digits1 r).map (fun p => ('E' :: '+' :: p.1, p.2))
  | 'E' :: '-' :: r => (digits1 r).map (fun p => ('E' :: '-' :: p.1, p.2))
  | 'E' :: r => (digits1 r).map (fun p => ('E' :: p.1, p.2))
  | s => some ([], s)

/-- A JSON number lexeme. -/
def parseNumberLexeme (s : List Char) : Option (List Char × List Char) :=
  let signAndRest : List Char × List Char :=
    match s with
    | '-' :: r => (['-'], r)
    | _ => ([], s)
  match parseIntPart signAndRest.2 with
  | none => none
  | some (ip, s2) =>
    match parseFracPart s2 with
    | none => none
    | some (fp, s3) =>
      match parseExpPart s3 with
      | none => none
      | some (ep, s4) => some (signAndRest.1 ++ ip ++ fp ++ ep, s4)

mutual

/-- JSON value parser; `fuel` bounds the recursion depth, and the top-level
entry point supplies enough for any input (see `jsonParse`). -/
def parseJSONValue : Nat → List Char → Option (JSValue × List Char)
  | 0, _ => none
  | fuel + 1, s =>
    match skipWS s with
    | [] => none
    | '{' :: rest => parseJSONObjectBody fuel rest
    | '[' :: rest => parseJSONArrayBody fuel rest
    | '"' :: rest => (parseStringBody rest).map (fun p => (.str ⟨p.1⟩, p.2))
    | 't' :: 'r' :: 'u' :: 'e' :: rest => some (.boolean true, rest)
    | 'f' :: 'a' :: 'l' :: 's' :: 'e' :: rest => some (.boolean false, rest)
    | 'n' :: 'u' :: 'l' :: 'l' :: rest => some (.null, rest)
    | c :: rest =>
      if c = '-' ∨ c.isDigit then
        (parseNumberLexeme (c :: rest)).map (fun p => (.num ⟨p.1⟩, p.2))
      else none

/-- Object body, after the opening brace. -/
def parseJSONObjectBody : Nat → List Char → Option (JSValue × List Char)
  | 0, _ => none
  | fuel + 1, s =>
    match skipWS s with
    | '}' :: rest => some (.obj [], rest)
    | _ => parseJSONMembers fuel s []

/-- One or more `"key": value` members, comma-separated, up to the closing
brace. -/
def parseJSONMembers : Nat → List Char → List (String × JSValue) →
    Option (JSValue × List Char)
  | 0, _, _ => none
  | fuel + 1, s, acc =>
    match skipWS s with
    | '"' :: rest =>
      match parseStringBody rest with
      | none => none
      | some (key, rest2) =>
        match skipWS rest2 with
        | ':' :: rest3 =>
          match parseJSONValue fuel rest3 with
          | none => none
          | some (v, rest4) =>
            match skipWS rest4 with
            | ',' :: rest5 => parseJSONMembers fuel rest5 (acc ++ [(⟨key⟩, v)])
            | '}' :: rest5 => some (.obj (acc ++ [(⟨key⟩, v)]), rest5)
            | _ => none
        | _ => none
    | _ => none

/-- Array body, after the opening bracket. -/
def parseJSONArrayBody : Nat → List Char → Option (JSValue × List Char)
  | 0, _ => none
  | fuel + 1, s =>
    match skipWS s with
    | ']' :: rest => some (.arr [], rest)
    | _ => parseJSONElements fuel s []

/-- One or more array elements, comma-separated, up to the closing
bracket. -/
def parseJSONElements : Nat → List Char → List JSValue →
    Option (JSValue × List Char)
  | 0, _, _ => none
  | fuel + 1, s, acc =>
    match parseJSONValue fuel s with
    | none => none
    | some (v, rest) =>
      match skipWS rest with
      | ',' :: rest2 => parseJSONElements fuel rest2 (acc ++ [v])
      | ']' :: rest2 => some (.arr (acc ++ [v]), rest2)
      | _ => none

end

/-- `JSON.parse`: whole-input value, allowing surrounding whitespace.  The
fuel `3 * length + 3` dominates the parser's depth: every three fuel levels
consume at least one input character. -/
def jsonParse (s : String) : Option JSValue :=
  match parseJSONValue (3 * s.data.length + 3) s.data with
  | some (v, rest) => if skipWS rest = [] then some v else none
  | none => none

/-! ## `ScmMultiDiffSourceResolver` (multi-diff source resolver)

`vs/base/common/uri` is not part of the supplied sources; the URI record and
`URI.parse` below are modelled from the spec ("opaque URI — fixed scheme,
JSON-encoded query").  `URI.from` stores its components verbatim and
`parseUri` reads `uri.query` back, so the claims only need the components. -/

structure URI where
  scheme : String
  authority : String
  path : String
  query : String
  fragment : String
  deriving Repr, DecidableEq

/-- Modelled from the spec: `URI.parse`, the standard RFC-3986-style
decomposition `scheme://authority/path?query#fragment` (component
percent-decoding omitted; no claim depends on it). -/
def uriParse (s : String) : URI :=
  let cs := s.data
  let schemeChars := cs.takeWhile (fun c => c ≠ ':' ∧ c ≠ '/' ∧ c ≠ '?' ∧ c ≠ '#')
  let p : List Char × List Char :=
    match cs.drop schemeChars.length with
    | ':' :: r1 => if schemeChars.isEmpty then ([], cs) else (schemeChars, r1)
    | _ => ([], cs)
  let rest1 := p.2
  let q : List Char × List Char :=
    match rest1 with
    | '/' :: '/' :: r =>
      (r.takeWhile (fun c => c ≠ '/' ∧ c ≠ '?' ∧ c ≠ '#'),
       r.dropWhile (fun c => c ≠ '/' ∧ c ≠ '?' ∧ c ≠ '#'))
    | _ => ([], rest1)
  let pathChars := q.2.takeWhile (fun c => c ≠ '?' ∧ c ≠ '#')
  let rest3 := q.2.dropWhile (fun c => c ≠ '?' ∧ c ≠ '#')
  let r : List Char × List Char :=
    match rest3 with
    | '?' :: rq => (rq.takeWhile (fun c => c ≠ '#'), rq.dropWhile (fun c => c ≠ '#'))
    | _ => ([], rest3)
  let fragmentChars : List Char :=
    match r.2 with
    | '#' :: rf => rf
    | _ => []
  ⟨⟨p.1⟩, ⟨q.1⟩, ⟨pathChars⟩, ⟨r.1⟩, ⟨fragmentChars⟩⟩

/-- `ScmMultiDiffSourceResolver._scheme`. -/
def scmMultiDiffSourceScheme : String := "scm-multi-diff-source"

/-- `JSON.stringify(\x7b repositoryUri, groupId \x7d satisfies UriFields)`. -/
def stringifyUriFields (repositoryUri groupId : String) : String :=
  "\x7b\"repositoryUri\":" ++ quoteJSONString repositoryUri
    ++ ",\"groupId\":" ++ quoteJSONString groupId ++ "\x7d"

/-- `getMultiDiffSourceUri`: `URI.from(\x7b scheme, query: JSON.stringify(...) \x7d)`. -/
def getMultiDiffSourceUri (repositoryUri groupId : String) : URI :=
  ⟨scmMultiDiffSourceScheme, "", "", stringifyUriFields repositoryUri groupId, ""⟩

/-- JS object field read (`query.repositoryUri`): objects built by
`JSON.parse` keep the LAST duplicate key; arrays and primitives have no such
named fields. -/
def jsField (v : JSValue) (key : String) : Option JSValue :=
  match v with
  | .obj fields => (fields.reverse.find? (fun f => f.1 = key)).map (·.2)
  | _ => none

/-- `ScmMultiDiffSourceResolver.parseUri`: check the scheme, `JSON.parse` the
query (`undefined` on a parse error), require a non-null object, and require
string `repositoryUri` and `groupId` fields. -/
def ScmMultiDiffSourceResolver.parseUri (uri : URI) : Option (URI × String) :=
  if uri.scheme ≠ scmMultiDiffSourceScheme then none
  else
    match jsonParse uri.query with
    | none => none
    | some query =>
      match query with
      | .obj _ | .arr _ =>
        match jsField query "repositoryUri", jsField query "groupId" with
        | some (.str repositoryUri), some (.str groupId) =>
          some (uriParse repositoryUri, groupId)
        | _, _ => none
      | _ => none

/-- `canHandleUri`. -/
def ScmMultiDiffSourceResolver.canHandleUri (uri : URI) : Bool :=
  (ScmMultiDiffSourceResolver.parseUri uri).isSome

/-! ## Round-trip lemmas for the JSON string codec -/

theorem hexVal_hexDigit (k : Nat) (h : k < 16) : hexVal (hexDigit k) = some k := by
  interval_cases k <;> rfl

theorem utf16Units_small (c : Char) (h : c.toNat < 0x10000) : utf16Units c = [c.toNat] := by
  simp [utf16Units, h]

theorem psu_cons (c : Char) (rest : List Char) :
    parseStringBodyUnits (c :: rest)
      = if c = '"' then some ([], rest)
        else if c = '\\' then
          match rest with
          | [] => none
          | e :: rest2 =>
            if e = 'u' then
              match rest2 with
              | h1 :: h2 :: h3 :: h4 :: rest3 =>
                match hexVal h1, hexVal h2, hexVal h3, hexVal h4 with
                | some a, some b, some c2, some d =>
                  (parseStringBodyUnits rest3).map
                    (fun p => ((((a * 16 + b) * 16 + c2) * 16 + d) :: p.1, p.2))
                | _, _, _, _ => none
              | _ => none
            else
              match escapeUnit e with
              | some u => (parseStringBodyUnits rest2).map (fun p => (u :: p.1, p.2))
              | none => none
        else if c.toNat < 32 then none
        else (parseStringBodyUnits rest).map (fun p => (utf16Units c ++ p.1, p.2)) := by
  rw [parseStringBodyUnits.eq_def]

theorem parseStringBodyUnits_escape (s : List Char) (rest : List Char) :
    parseStringBodyUnits (s.flatMap escapeJSONChar ++ '"' :: rest)
      = some (s.flatMap utf16Units, rest) := by
  induction s with
  | nil =>
    simp [psu_cons]
  | cons c cs ih =>
    rw [List.flatMap_cons, List.flatMap_cons, List.append_assoc]
    by_cases h1 : c = '"'
    · subst h1
      simp [escapeJSONChar, psu_cons, escapeUnit, ih, utf16Units]
    · by_cases h2 : c = '\\'
      · subst h2
        simp [escapeJSONChar, psu_cons, escapeUnit, ih, utf16Units]
      · by_cases h3 : c = '\x08'
        · subst h3
          simp [escapeJSONChar, psu_cons, escapeUnit, ih, utf16Units]
        · by_cases h4 : c = '\x0c'
          · subst h4
            simp [escapeJSONChar, psu_cons, escapeUnit, ih, utf16Units]
          · by_cases h5 : c = '\n'
            · subst h5
              simp [escapeJSONChar, psu_cons, escapeUnit, ih, utf16Units]
            · by_cases h6 : c = '\r'
              · subst h6
                simp [escapeJSONChar, psu_cons, escapeUnit, ih, utf16Units]
              · by_cases h7 : c = '\t'
                · subst h7
                  simp [escapeJSONChar, psu_cons, escapeUnit, ih, utf16Units]
                · by_cases h8 : c.toNat < 0x20
                  · rw [show escapeJSONChar c = ['\\', 'u', '0', '0',
                        hexDigit (c.toNat / 16), hexDigit (c.toNat % 16)] from by
                      simp [escapeJSONChar, h1, h2, h3, h4, h5, h6, h7, h8]]
                    have hd : c.toNat / 16 < 16 := by omega
                    have hm : c.toNat % 16 < 16 := Nat.mod_lt _ (by norm_num)
                    simp only [List.cons_append, List.nil_append]
                    rw [psu_cons]
                    rw [if_neg (by decide), if_pos rfl]
                    simp only [if_pos rfl]
                    rw [show hexVal '0' = some 0 from rfl,
                      hexVal_hexDigit _ hd, hexVal_hexDigit _ hm]
                    simp only [ih, Option.map_some]
                    have he : ((0 * 16 + 0) * 16 + c.toNat / 16) * 16 + c.toNat % 16
                        = c.toNat := by
                      have := Nat.div_add_mod c.toNat 16
                      omega
                    rw [he, utf16Units_small c (by omega)]
                    rfl
                  · rw [show escapeJSONChar c = [c] from by
                      simp [escapeJSONChar, h1, h2, h3, h4, h5, h6, h7, h8]]
                    simp only [List.singleton_append]
                    rw [psu_cons]
                    rw [if_neg h1, if_neg h2, if_neg h8, ih]
                    rfl

/-- No Lean character is a UTF-16 surrogate. -/
theorem char_not_surrogate (c : Char) :
    c.toNat < 0xD800 ∨ (0xDFFF < c.toNat ∧ c.toNat < 0x110000) := c.valid

/-- Decoding UTF-16 units of a well-formed string recovers it. -/
theorem unitsToChars_utf16 (s : List Char) :
    unitsToChars (s.flatMap utf16Units) = s := by
  induction s with
  | nil => simp [unitsToChars]
  | cons c cs ih =>
    rcases char_not_surrogate c with h | h
    · have hsmall : c.toNat < 0x10000 := by omega
      rw [List.flatMap_cons, utf16Units_small c hsmall, List.singleton_append]
      rw [unitsToChars.eq_def]
      simp only
      rw [if_neg (by omega), if_neg (by omega), Char.ofNat_toNat, ih]
    · by_cases hsmall : c.toNat < 0x10000
      · rw [List.flatMap_cons, utf16Units_small c hsmall, List.singleton_append]
        rw [unitsToChars.eq_def]
        simp only
        rw [if_neg (by omega), if_neg (by omega), Char.ofNat_toNat, ih]
      · have h1 : ¬ (c.toNat < 0x10000) := hsmall
        rw [List.flatMap_cons]
        rw [show utf16Units c = [0xD800 + (c.toNat - 0x10000) / 0x400,
              0xDC00 + (c.toNat - 0x10000) % 0x400] from by simp [utf16Units, h1]]
        have hdiv : (c.toNat - 0x10000) / 0x400 < 0x400 := by omega
        have hmod : (c.toNat - 0x10000) % 0x400 < 0x400 := Nat.mod_lt _ (by norm_num)
        rw [List.cons_append, List.cons_append, List.nil_append]
        rw [unitsToChars.eq_def]
        simp only
        rw [if_pos (by constructor <;> omega)]
        rw [if_pos (by constructor <;> omega)]
        have hco : 0x10000 + (0xD800 + (c.toNat - 0x10000) / 0x400 - 0xD800) * 0x400
            + (0xDC00 + (c.toNat - 0x10000) % 0x400 - 0xDC00) = c.toNat := by
          have := Nat.div_add_mod (c.toNat - 0x10000) 0x400
          omega
        rw [hco, Char.ofNat_toNat, ih]

/-- `JSON.stringify` string escaping round-trips through the string-literal
parser. -/
theorem parseStringBody_escape (s : String) (rest : List Char) :
    parseStringBody (s.data.flatMap escapeJSONChar ++ '"' :: rest)
      = some (s.data, rest) := by
  simp [parseStringBody, parseStringBodyUnits_escape, unitsToChars_utf16]

/-- The character-level decomposition of the stringified query. -/
theorem stringifyUriFields_data (r g : String) :
    (stringifyUriFields r g).data
      = '\x7b' :: '"' :: ("repositoryUri".data ++ '"' :: ':' ::
          '"' :: (r.data.flatMap escapeJSONChar ++ '"' :: ',' :: '"' ::
            ("groupId".data ++ '"' :: ':' :: '"' ::
              (g.data.flatMap escapeJSONChar ++ ['"', '\x7d'])))) := by
  simp [stringifyUriFields, quoteJSONString]

/-! ## C8 round trip: `getMultiDiffSourceUri` / `parseUri` -/

/-- `\x7b`-headed input dispatches to the object parser. -/
theorem pjv_obj (fuel : Nat) (rest : List Char) :
    parseJSONValue (fuel + 1) ('\x7b' :: rest) = parseJSONObjectBody fuel rest := rfl

/-- A quote-headed object body is one-or-more members. -/
theorem pjob_quote (fuel : Nat) (rest : List Char) :
    parseJSONObjectBody (fuel + 1) ('"' :: rest)
      = parseJSONMembers fuel ('"' :: rest) [] := rfl

/-- Parsing the stringified `UriFields` object yields exactly the two-field
object, with any sufficient fuel. -/
theorem parseJSONValue_uriFields (f : Nat) (r g : String) :
    parseJSONValue (f + 5) (stringifyUriFields r g).data
      = some (.obj [("repositoryUri", .str r), ("groupId", .str g)], []) := by
  rw [stringifyUriFields_data, pjv_obj, pjob_quote]
  rw [parseJSONMembers]
  have hq : ∀ (X : List Char), skipWS ('"' :: X) = '"' :: X := fun _ => rfl
  simp only [hq]
  have hk1 : ∀ (X : List Char),
      parseStringBody (['r','e','p','o','s','i','t','o','r','y','U','r','i']
          ++ '"' :: X)
        = some (['r','e','p','o','s','i','t','o','r','y','U','r','i'], X) := by
    intro X
    have h0 := parseStringBody_escape "repositoryUri" X
    simpa using h0
  have hk2 : ∀ (X : List Char),
      parseStringBody (['g','r','o','u','p','I','d'] ++ '"' :: X)
        = some (['g','r','o','u','p','I','d'], X) := by
    intro X
    have h0 := parseStringBody_escape "groupId" X
    simpa using h0
  have hc : ∀ (X : List Char), skipWS (':' :: X) = ':' :: X := fun _ => rfl
  have hcm : ∀ (X : List Char), skipWS (',' :: X) = ',' :: X := fun _ => rfl
  have hcb : ∀ (X : List Char), skipWS ('\x7d' :: X) = '\x7d' :: X := fun _ => rfl
  have hv : ∀ (fuel : Nat) (s : String) (X : List Char),
      parseJSONValue (fuel + 1)
          ('"' :: (s.data.flatMap escapeJSONChar ++ '"' :: X))
        = some (.str s, X) := by
    intro fuel s X
    rw [parseJSONValue, hq]
    simp only [parseStringBody_escape, Option.map_some]
    rfl
  simp only [hk1, hc, hv, hcm, hk2, hcb]
  rw [parseJSONMembers]
  simp only [hq, hk2, hc, hv, hcb]
  rfl


/-- `JSON.parse` inverts `JSON.stringify` on the `UriFields` object. -/
theorem jsonParse_uriFields (r g : String) :
    jsonParse (stringifyUriFields r g)
      = some (.obj [("repositoryUri", .str r), ("groupId", .str g)]) := by
  obtain ⟨f, hf⟩ : ∃ f, 3 * (stringifyUriFields r g).data.length + 3 = f + 5 := by
    refine ⟨3 * (stringifyUriFields r g).data.length + 3 - 5, ?_⟩
    have : 1 ≤ (stringifyUriFields r g).data.length := by
      rw [stringifyUriFields_data]; simp
    omega
  rw [jsonParse, hf, parseJSONValue_uriFields]
  rfl

/-- `parseUri` recovers the encoded pair. -/
theorem parseUri_roundtrip (r g : String) :
    ScmMultiDiffSourceResolver.parseUri (getMultiDiffSourceUri r g)
      = some (uriParse r, g) := by
  simp only [ScmMultiDiffSourceResolver.parseUri, getMultiDiffSourceUri]
  rw [if_neg (by simp [scmMultiDiffSourceScheme])]
  simp only [jsonParse_uriFields]
  rfl

/-- C8: for every pair of strings, `getMultiDiffSourceUri` produces a URI
with scheme `scm-multi-diff-source` whose query is the JSON encoding of the
pair; `parseUri` recovers exactly `(URI.parse repositoryUri, groupId)` and
`canHandleUri` accepts it; conversely `canHandleUri` accepts a URI exactly
when its scheme matches and its query parses to a JSON object carrying
string `repositoryUri` and `groupId` fields. -/
theorem c8_multi_diff_source_uri_roundtrip :
    (∀ repositoryUri groupId : String,
      (getMultiDiffSourceUri repositoryUri groupId).scheme
          = "scm-multi-diff-source" ∧
      jsonParse (getMultiDiffSourceUri repositoryUri groupId).query
          = some (.obj [("repositoryUri", .str repositoryUri),
                        ("groupId", .str groupId)]) ∧
      ScmMultiDiffSourceResolver.parseUri
          (getMultiDiffSourceUri repositoryUri groupId)
          = some (uriParse repositoryUri, groupId) ∧
      ScmMultiDiffSourceResolver.canHandleUri
          (getMultiDiffSourceUri repositoryUri groupId) = true) ∧
    (∀ uri : URI,
      ScmMultiDiffSourceResolver.canHandleUri uri = true ↔
        (uri.scheme = scmMultiDiffSourceScheme ∧
         ∃ fields repositoryUri groupId,
           jsonParse uri.query = some (JSValue.obj fields) ∧
           jsField (JSValue.obj fields) "repositoryUri"
             = some (.str repositoryUri) ∧
           jsField (JSValue.obj fields) "groupId" = some (.str groupId))) := by
  constructor
  · intro r g
    refine ⟨rfl, jsonParse_uriFields r g, parseUri_roundtrip r g, ?_⟩
    simp [ScmMultiDiffSourceResolver.canHandleUri, parseUri_roundtrip r g]
  · intro uri
    constructor
    · intro h
      simp only [ScmMultiDiffSourceResolver.canHandleUri,
        ScmMultiDiffSourceResolver.parseUri] at h
      by_cases hs : uri.scheme ≠ scmMultiDiffSourceScheme
      · rw [if_pos hs] at h
        simp at h
      · rw [if_neg hs] at h
        refine ⟨by simpa using hs, ?_⟩
        rcases hj : jsonParse uri.query with _ | q
        · rw [hj] at h
          simp at h
        · rw [hj] at h
          cases q with
          | obj fields =>
            have h2 : (match jsField (JSValue.obj fields) "repositoryUri",
                jsField (JSValue.obj fields) "groupId" with
              | some (JSValue.str rv), some (JSValue.str gv) =>
                some (uriParse rv, gv)
              | _, _ => none).isSome = true := h
            rcases hr : jsField (JSValue.obj fields) "repositoryUri"
              with _ | vr
            · rw [hr] at h2
              simp at h2
            · rcases hg : jsField (JSValue.obj fields) "groupId" with _ | vg
              · rw [hr, hg] at h2
                cases vr <;> simp at h2
              · rw [hr, hg] at h2
                cases vr <;> cases vg <;> simp at h2
                rename_i rv gv
                exact ⟨fields, rv, gv, rfl, hr, hg⟩
          | arr elems => simp [jsField] at h
          | null => simp at h
          | boolean b => simp at h
          | num n => simp at h
          | str s => simp at h
    · rintro ⟨hs, fields, rv, gv, hj, hr, hg⟩
      simp only [ScmMultiDiffSourceResolver.canHandleUri,
        ScmMultiDiffSourceResolver.parseUri]
      rw [if_neg (by simp [hs]), hj]
      show (match jsField (JSValue.obj fields) "repositoryUri",
          jsField (JSValue.obj fields) "groupId" with
        | some (JSValue.str a), some (JSValue.str b) => some (uriParse a, b)
        | _, _ => none).isSome = true
      rw [hr, hg]
      rfl

/-! ## `vs/base/node/nls.js` `resolveNLSConfiguration` (C4)

The resolver runs over the real file system; it is embedded against an
explicit file-system state (`NLSFileSystem`): `readFile` succeeds exactly on
recorded files, `exists` (here `existsPath`, as `exists` is a Lean keyword)
also sees directories created by `mkdirp`, and `rimraf` removes a whole
subtree.  `JSON.parse` is the executable `jsonParse` above; a JavaScript
exception anywhere inside the `try` block is modelled as `none`/`Option`
failure and lands in the `catch`-then-default path, exactly as in the
source.  `touch` only changes timestamps (and its failure is swallowed by
`.catch(() => { })`), so it does not appear in the state. -/

structure NLSFileSystem where
  files : List (String × String)
  dirs : List String
  deriving Repr, DecidableEq

def readFile (fs : NLSFileSystem) (p : String) : Option String :=
  (fs.files.find? (fun f => f.1 == p)).map (fun f => f.2)

def existsPath (fs : NLSFileSystem) (p : String) : Bool :=
  fs.files.any (fun f => f.1 == p) || fs.dirs.any (fun d => d == p)

def writeFile (fs : NLSFileSystem) (p c : String) : NLSFileSystem :=
  ⟨(p, c) :: fs.files.filter (fun f => f.1 != p), fs.dirs⟩

def mkdirp (fs : NLSFileSystem) (p : String) : NLSFileSystem :=
  ⟨fs.files, p :: fs.dirs⟩

/-- `q` equals `root` or lies beneath it. -/
def underPath (root q : String) : Bool :=
  q == root || (root ++ "/").data.isPrefixOf q.data

/-- `fs.promises.rm(path, { recursive: true, force: true })`. -/
def rimraf (fs : NLSFileSystem) (p : String) : NLSFileSystem :=
  ⟨fs.files.filter (fun f => ! underPath p f.1),
   fs.dirs.filter (fun d => ! underPath p d)⟩

/-- `path.join` (POSIX, no normalization needed for the claim). -/
def pathJoin (a b : String) : String := a ++ "/" ++ b

/-- JavaScript truthiness of a JSON value.  A number is falsy exactly when
it denotes zero, i.e. its mantissa has no nonzero digit. -/
def jsTruthy : JSValue → Bool
  | .null => false
  | .boolean b => b
  | .str s => s != ""
  | .num lex =>
    (lex.data.takeWhile (fun c => c != 'e' && c != 'E')).any
      (fun c => c.isDigit && c != '0')
  | .obj _ => true
  | .arr _ => true

/-- Truthiness with `undefined` (`none`) falsy. -/
def jsTruthyOpt : Option JSValue → Bool
  | none => false
  | some v => jsTruthy v

/-- `v.k` on a possibly-`undefined` base (only used after a truthiness
guard, so the access never throws in the source). -/
def jsFieldOpt (v : Option JSValue) (k : String) : Option JSValue :=
  match v with
  | none => none
  | some w => jsField w k

/-- `v?.k`: optional chaining, `undefined` on `undefined`/`null` base. -/
def optChainField (v : Option JSValue) (k : String) : Option JSValue :=
  match v with
  | none => none
  | some .null => none
  | some w => jsField w k

def isStringValue : Option JSValue → Bool
  | some (.str _) => true
  | _ => false

def stringValueOf : Option JSValue → String
  | some (.str s) => s
  | _ => ""

/-- `String(v)` as a property key (array/object keys do not occur in
well-formed NLS metadata; their rendering is approximated). -/
def jsKeyString : JSValue → String
  | .str s => s
  | .num lex => lex
  | .boolean b => cond b "true" "false"
  | .null => "null"
  | .arr _ => ""
  | .obj _ => "[object Object]"

/-- `String.prototype.lastIndexOf` for one character (`-1` if absent). -/
def jsLastIndexOf (s : String) (c : Char) : Int :=
  match s.data.reverse.findIdx? (fun x => x == c) with
  | none => -1
  | some i => (s.data.length : Int) - 1 - i

/-- `locale.substring(0, n)`. -/
def jsSubstring0 (s : String) (n : Nat) : String := ⟨s.data.take n⟩

/-- `getLanguagePackConfigurations`: read and parse
`userDataPath/languagepacks.json`, `undefined` on any failure. -/
def getLanguagePackConfigurations (fs : NLSFileSystem) (userDataPath : String) :
    Option JSValue :=
  match readFile fs (pathJoin userDataPath "languagepacks.json") with
  | none => none
  | some content => jsonParse content

/-- The `while (locale)` loop of `resolveLanguagePackLocale`; each round
strips the last `-`-suffix, so `locale.length + 1` rounds always suffice
(the fuel is an upper bound, not part of the source). -/
def resolveLanguagePackLocaleFuel (languagePacks : JSValue) :
    Nat → String → Option String
  | 0, _ => none
  | fuel + 1, locale =>
    if locale == "" then none
    else if jsTruthyOpt (jsField languagePacks locale) then some locale
    else
      let index := jsLastIndexOf locale '-'
      if 0 < index then
        resolveLanguagePackLocaleFuel languagePacks fuel
          (jsSubstring0 locale index.toNat)
      else none

def resolveLanguagePackLocale (languagePacks : JSValue) (locale : String) :
    Option String :=
  resolveLanguagePackLocaleFuel languagePacks (locale.length + 1) locale

structure INLSLanguagePack where
  translationsConfigFile : String
  messagesFile : String
  corruptMarkerFile : String
  deriving Repr, DecidableEq

structure INLSConfiguration where
  userLocale : String
  osLocale : String
  resolvedLocale : String
  defaultMessagesFile : String
  languagePack : Option INLSLanguagePack
  deriving Repr, DecidableEq

/-- `IResolveNLSConfigurationContext` plus the `VSCODE_DEV` environment
check; an absent `commit`/`userDataPath` is the empty (falsy) string. -/
structure NLSContext where
  devMode : Bool
  userLocale : String
  osLocale : String
  userDataPath : String
  commit : String
  nlsMetadataPath : String
  deriving Repr, DecidableEq

def defaultNLSConfiguration (ctx : NLSContext) : INLSConfiguration :=
  ⟨ctx.userLocale, ctx.osLocale, "en",
   pathJoin ctx.nlsMetadataPath "nls.messages.json", none⟩

/-- `arr[i]` (`undefined` when out of bounds or not an array). -/
def arrIndex (v : JSValue) (i : Nat) : Option JSValue :=
  match v with
  | .arr es => es[i]?
  | _ => none

/-- `moduleTranslations?.[nlsKey]`. -/
def optChainIndex (mt : Option JSValue) (key : JSValue) : Option JSValue :=
  match mt with
  | none => none
  | some .null => none
  | some v => jsField v (jsKeyString key)

/-- The inner `for (const nlsKey of nlsKeys)` loop: push the translation if
truthy, else the default message at the running index; `undefined` entries
are recorded as `null`, which is also how `JSON.stringify` renders them
inside an array. -/
def nlsInnerLoop (moduleTranslations : Option JSValue)
    (nlsDefaultMessages : JSValue) :
    List JSValue → Nat → List JSValue → Nat × List JSValue
  | [], nlsIndex, acc => (nlsIndex, acc)
  | key :: keys, nlsIndex, acc =>
    let t := optChainIndex moduleTranslations key
    let v := if jsTruthyOpt t then t else arrIndex nlsDefaultMessages nlsIndex
    nlsInnerLoop moduleTranslations nlsDefaultMessages keys (nlsIndex + 1)
      (acc ++ [v.getD .null])

/-- The outer `for (const [moduleId, nlsKeys] of nlsDefaultKeys)` loop;
`none` models a thrown `TypeError` (destructuring or iterating a non-array,
or indexing into `undefined`/`null` contents).  JavaScript string
iterability is not modelled: the NLS metadata shapes are arrays. -/
def nlsOuterLoop (nlsDefaultMessages nlsPackdata : JSValue) :
    List JSValue → Nat → List JSValue → Option (List JSValue)
  | [], _, acc => some acc
  | entry :: entries, nlsIndex, acc =>
    match entry with
    | .arr elems =>
      let moduleId := elems[0]?
      let nlsKeysV := elems[1]?
      match nlsPackdata with
      | .null => none
      | _ =>
        match jsField nlsPackdata "contents" with
        | none => none
        | some .null => none
        | some contents =>
          let moduleKey :=
            match moduleId with
            | none => "undefined"
            | some m => jsKeyString m
          let moduleTranslations := jsField contents moduleKey
          match nlsKeysV with
          | some (JSValue.arr keys) =>
            let step := nlsInnerLoop moduleTranslations nlsDefaultMessages
              keys nlsIndex acc
            nlsOuterLoop nlsDefaultMessages nlsPackdata entries step.1 step.2
          | _ => none
    | _ => none

/-- The whole `nlsResult` generation (lines 227-241 of the source). -/
def genNLSResult (nlsDefaultKeys nlsDefaultMessages nlsPackdata : JSValue) :
    Option (List JSValue) :=
  match nlsDefaultKeys with
  | .arr entries => nlsOuterLoop nlsDefaultMessages nlsPackdata entries 0 []
  | _ => none

/-- `JSON.stringify` (compact form, as in the source). -/
def jsonStringifyV : JSValue → String
  | .null => "null"
  | .boolean b => cond b "true" "false"
  | .num lex => lex
  | .str s => quoteJSONString s
  | .arr es =>
    "[" ++ String.intercalate "," (es.attach.map (fun e => jsonStringifyV e.1))
      ++ "]"
  | .obj fields =>
    "\x7b" ++ String.intercalate ","
        (fields.attach.map
          (fun f => quoteJSONString f.1.1 ++ ":" ++ jsonStringifyV f.1.2))
      ++ "\x7d"
termination_by v => sizeOf v
decreasing_by
  · have h := List.sizeOf_lt_of_mem e.2
    simp only [JSValue.arr.sizeOf_spec]
    omega
  · have h := List.sizeOf_lt_of_mem f.2
    obtain ⟨⟨a, b⟩, hf⟩ := f
    simp only [JSValue.obj.sizeOf_spec]
    simp only [Prod.mk.sizeOf_spec] at h
    omega

/-- Read a file and `JSON.parse` it (`none` on either failure, which the
source turns into a thrown error caught by the outer `catch`). -/
def readJSONFile (fs : NLSFileSystem) (p : String) : Option JSValue :=
  match readFile fs p with
  | none => none
  | some content => jsonParse content

/-- The language-pack cache paths computed on lines 182-187. -/
structure NLSCachePaths where
  globalLanguagePackCachePath : String
  commitLanguagePackCachePath : String
  languagePackMessagesFile : String
  translationsConfigFile : String
  languagePackCorruptMarkerFile : String
  deriving Repr, DecidableEq

def nlsCachePaths (ctx : NLSContext) (hash resolvedLocale : String) :
    NLSCachePaths :=
  let languagePackId := hash ++ "." ++ resolvedLocale
  let globalLanguagePackCachePath :=
    pathJoin (pathJoin ctx.userDataPath "clp") languagePackId
  let commitLanguagePackCachePath :=
    pathJoin globalLanguagePackCachePath ctx.commit
  ⟨globalLanguagePackCachePath, commitLanguagePackCachePath,
   pathJoin commitLanguagePackCachePath "nls.messages.json",
   pathJoin globalLanguagePackCachePath "tcf.json",
   pathJoin globalLanguagePackCachePath "corrupted.info"⟩

/-- `resolveNLSConfiguration`, threading the file-system state.  Every
early return and every caught exception yields `defaultNLSConfiguration`;
the two success exits return `result` with the language-pack block. -/
def resolveNLSConfiguration (ctx : NLSContext) (fs : NLSFileSystem) :
    NLSFileSystem × INLSConfiguration :=
  if ctx.devMode || ctx.userLocale == "pseudo" || ctx.userLocale == "en"
      || ctx.userLocale == "en-us" || ctx.commit == ""
      || ctx.userDataPath == "" then
    (fs, defaultNLSConfiguration ctx)
  else
    match getLanguagePackConfigurations fs ctx.userDataPath with
    | none => (fs, defaultNLSConfiguration ctx)
    | some languagePacks =>
      if ! jsTruthy languagePacks then (fs, defaultNLSConfiguration ctx)
      else
        match resolveLanguagePackLocale languagePacks ctx.userLocale with
        | none => (fs, defaultNLSConfiguration ctx)
        | some resolvedLocale =>
          let languagePack := jsField languagePacks resolvedLocale
          let mainLanguagePackPath :=
            optChainField (optChainField languagePack "translations") "vscode"
          if ! jsTruthyOpt languagePack
              || ! isStringValue (jsFieldOpt languagePack "hash")
              || ! jsTruthyOpt (jsFieldOpt languagePack "translations")
              || ! isStringValue mainLanguagePackPath
              || ! existsPath fs (stringValueOf mainLanguagePackPath) then
            (fs, defaultNLSConfiguration ctx)
          else
            let paths := nlsCachePaths ctx
              (stringValueOf (jsFieldOpt languagePack "hash")) resolvedLocale
            let fs1 :=
              if existsPath fs paths.languagePackCorruptMarkerFile then
                rimraf fs paths.globalLanguagePackCachePath
              else fs
            let result : INLSConfiguration :=
              ⟨ctx.userLocale, ctx.osLocale, resolvedLocale,
               pathJoin ctx.nlsMetadataPath "nls.messages.json",
               some ⟨paths.translationsConfigFile,
                     paths.languagePackMessagesFile,
                     paths.languagePackCorruptMarkerFile⟩⟩
            if existsPath fs1 paths.commitLanguagePackCachePath then
              (fs1, result)
            else
              let fs2 := mkdirp fs1 paths.commitLanguagePackCachePath
              match
                readJSONFile fs2 (pathJoin ctx.nlsMetadataPath "nls.keys.json"),
                readJSONFile fs2
                  (pathJoin ctx.nlsMetadataPath "nls.messages.json"),
                readJSONFile fs2 (stringValueOf mainLanguagePackPath) with
              | some nlsDefaultKeys, some nlsDefaultMessages,
                some nlsPackdata =>
                match genNLSResult nlsDefaultKeys nlsDefaultMessages
                    nlsPackdata with
                | none => (fs2, defaultNLSConfiguration ctx)
                | some nlsResult =>
                  let fs3 := writeFile fs2 paths.languagePackMessagesFile
                    (jsonStringifyV (.arr nlsResult))
                  let fs4 := writeFile fs3 paths.translationsConfigFile
                    (jsonStringifyV
                      ((jsFieldOpt languagePack "translations").getD .null))
                  (fs4, result)
              | _, _, _ => (fs2, defaultNLSConfiguration ctx)

/-- C4: `resolveNLSConfiguration` returns the default configuration —
`resolvedLocale` `"en"`, a `defaultMessagesFile` under the NLS metadata
directory, no `languagePack` — whenever development mode is set, the user
locale is `pseudo`, `en` or `en-us`, or no build commit or user-data path
is provided; and every failure along the language-pack path — missing or
unparseable `languagepacks.json`, a locale that resolves to no installed
pack, a malformed pack entry or missing translation file, and any
read/parse/generation failure while building the message cache — also
yields that default configuration rather than a thrown error (exceptions
inside the `try` block are modelled as the `none` cases that the `catch`
path turns into the default). -/
theorem c4_nls_default_configuration :
    (∀ ctx : NLSContext,
      (defaultNLSConfiguration ctx).resolvedLocale = "en" ∧
      (defaultNLSConfiguration ctx).defaultMessagesFile
          = pathJoin ctx.nlsMetadataPath "nls.messages.json" ∧
      (defaultNLSConfiguration ctx).languagePack = none) ∧
    (∀ (ctx : NLSContext) (fs : NLSFileSystem),
      (ctx.devMode || ctx.userLocale == "pseudo" || ctx.userLocale == "en"
        || ctx.userLocale == "en-us" || ctx.commit == ""
        || ctx.userDataPath == "") = true →
      (resolveNLSConfiguration ctx fs).2 = defaultNLSConfiguration ctx) ∧
    (∀ (ctx : NLSContext) (fs : NLSFileSystem),
      getLanguagePackConfigurations fs ctx.userDataPath = none →
      (resolveNLSConfiguration ctx fs).2 = defaultNLSConfiguration ctx) ∧
    (∀ (ctx : NLSContext) (fs : NLSFileSystem) (languagePacks : JSValue),
      getLanguagePackConfigurations fs ctx.userDataPath = some languagePacks →
      resolveLanguagePackLocale languagePacks ctx.userLocale = none →
      (resolveNLSConfiguration ctx fs).2 = defaultNLSConfiguration ctx) ∧
    (∀ (ctx : NLSContext) (fs : NLSFileSystem) (languagePacks : JSValue)
        (resolvedLocale : String),
      getLanguagePackConfigurations fs ctx.userDataPath = some languagePacks →
      resolveLanguagePackLocale languagePacks ctx.userLocale
          = some resolvedLocale →
      (! jsTruthyOpt (jsField languagePacks resolvedLocale)
        || ! isStringValue
            (jsFieldOpt (jsField languagePacks resolvedLocale) "hash")
        || ! jsTruthyOpt
            (jsFieldOpt (jsField languagePacks resolvedLocale) "translations")
        || ! isStringValue
            (optChainField
              (optChainField (jsField languagePacks resolvedLocale)
                "translations") "vscode")
        || ! existsPath fs
            (stringValueOf
              (optChainField
                (optChainField (jsField languagePacks resolvedLocale)
                  "translations") "vscode"))) = true →
      (resolveNLSConfiguration ctx fs).2 = defaultNLSConfiguration ctx) ∧
    (∀ (ctx : NLSContext) (fs : NLSFileSystem) (languagePacks : JSValue)
        (resolvedLocale : String),
      getLanguagePackConfigurations fs ctx.userDataPath
        = some languagePacks →
      resolveLanguagePackLocale languagePacks ctx.userLocale
        = some resolvedLocale →
      existsPath
        (if existsPath fs
            (nlsCachePaths ctx
              (stringValueOf
                (jsFieldOpt (jsField languagePacks resolvedLocale) "hash"))
              resolvedLocale).languagePackCorruptMarkerFile then
          rimraf fs
            (nlsCachePaths ctx
              (stringValueOf
                (jsFieldOpt (jsField languagePacks resolvedLocale) "hash"))
              resolvedLocale).globalLanguagePackCachePath
        else fs)
        (nlsCachePaths ctx
          (stringValueOf
            (jsFieldOpt (jsField languagePacks resolvedLocale) "hash"))
          resolvedLocale).commitLanguagePackCachePath = false →
      (∀ fs2 : NLSFileSystem,
      readJSONFile fs2 (pathJoin ctx.nlsMetadataPath "nls.keys.json")
          = none ∨
      readJSONFile fs2 (pathJoin ctx.nlsMetadataPath "nls.messages.json")
          = none ∨
      readJSONFile fs2
          (stringValueOf
            (optChainField
              (optChainField (jsField languagePacks resolvedLocale)
                "translations") "vscode")) = none ∨
      (∀ k m p, readJSONFile fs2
            (pathJoin ctx.nlsMetadataPath "nls.keys.json") = some k →
        readJSONFile fs2
            (pathJoin ctx.nlsMetadataPath "nls.messages.json") = some m →
        readJSONFile fs2
            (stringValueOf
              (optChainField
                (optChainField (jsField languagePacks resolvedLocale)
                  "translations") "vscode")) = some p →
        genNLSResult k m p = none)) →
      (resolveNLSConfiguration ctx fs).2 = defaultNLSConfiguration ctx) := by
  refine ⟨fun ctx => ⟨rfl, rfl, rfl⟩, ?_, ?_, ?_, ?_, ?_⟩
  · intro ctx fs hg
    simp [resolveNLSConfiguration, hg]
  · intro ctx fs h
    by_cases hg : (ctx.devMode || ctx.userLocale == "pseudo"
        || ctx.userLocale == "en" || ctx.userLocale == "en-us"
        || ctx.commit == "" || ctx.userDataPath == "") = true
    · simp [resolveNLSConfiguration, hg]
    · simp only [resolveNLSConfiguration]
      rw [if_neg (by simpa using hg), h]
  · intro ctx fs lps h1 h2
    by_cases hg : (ctx.devMode || ctx.userLocale == "pseudo"
        || ctx.userLocale == "en" || ctx.userLocale == "en-us"
        || ctx.commit == "" || ctx.userDataPath == "") = true
    · simp [resolveNLSConfiguration, hg]
    · simp only [resolveNLSConfiguration]
      rw [if_neg (by simpa using hg), h1]
      by_cases ht : jsTruthy lps
      · simp [ht, h2]
      · simp [ht]
  · intro ctx fs languagePacks resolvedLocale h1 h2 hbad
    by_cases hg : (ctx.devMode || ctx.userLocale == "pseudo"
        || ctx.userLocale == "en" || ctx.userLocale == "en-us"
        || ctx.commit == "" || ctx.userDataPath == "") = true
    · simp [resolveNLSConfiguration, hg]
    · simp only [resolveNLSConfiguration]
      rw [if_neg (by simpa using hg), h1]
      by_cases ht : jsTruthy languagePacks
      · simp only [ht, Bool.not_true, Bool.false_eq_true, if_false, if_neg]
        rw [h2]
        simp only
        rw [if_pos hbad]
      · simp [ht]
  · intro ctx fs languagePacks resolvedLocale h1 h2 hex hfail
    by_cases hg : (ctx.devMode || ctx.userLocale == "pseudo"
        || ctx.userLocale == "en" || ctx.userLocale == "en-us"
        || ctx.commit == "" || ctx.userDataPath == "") = true
    · simp [resolveNLSConfiguration, hg]
    · simp only [resolveNLSConfiguration]
      rw [if_neg (by simpa using hg), h1]
      by_cases ht : jsTruthy languagePacks
      · simp only [ht, Bool.not_true, Bool.false_eq_true, if_false, if_neg]
        rw [h2]
        simp only
        by_cases hbad : (! jsTruthyOpt (jsField languagePacks resolvedLocale)
            || ! isStringValue
                (jsFieldOpt (jsField languagePacks resolvedLocale) "hash")
            || ! jsTruthyOpt
                (jsFieldOpt (jsField languagePacks resolvedLocale)
                  "translations")
            || ! isStringValue
                (optChainField
                  (optChainField (jsField languagePacks resolvedLocale)
                    "translations") "vscode")
            || ! existsPath fs
                (stringValueOf
                  (optChainField
                    (optChainField (jsField languagePacks resolvedLocale)
                      "translations") "vscode"))) = true
        · rw [if_pos hbad]
        · rw [if_neg hbad]
          rw [if_neg (by simp [hex])]
          rcases hk2 : readJSONFile (mkdirp
              (if existsPath fs
                  (nlsCachePaths ctx
                    (stringValueOf
                  (jsFieldOpt (jsField languagePacks resolvedLocale) "hash")) resolvedLocale).languagePackCorruptMarkerFile
                then rimraf fs
                  (nlsCachePaths ctx
                    (stringValueOf
                  (jsFieldOpt (jsField languagePacks resolvedLocale) "hash")) resolvedLocale).globalLanguagePackCachePath
                else fs)
              (nlsCachePaths ctx
                (stringValueOf
                  (jsFieldOpt (jsField languagePacks resolvedLocale) "hash")) resolvedLocale).commitLanguagePackCachePath)
              (pathJoin ctx.nlsMetadataPath "nls.keys.json") with _ | k
          · rfl
          · rcases hm2 : readJSONFile (mkdirp
              (if existsPath fs
                  (nlsCachePaths ctx
                    (stringValueOf
                  (jsFieldOpt (jsField languagePacks resolvedLocale) "hash")) resolvedLocale).languagePackCorruptMarkerFile
                then rimraf fs
                  (nlsCachePaths ctx
                    (stringValueOf
                  (jsFieldOpt (jsField languagePacks resolvedLocale) "hash")) resolvedLocale).globalLanguagePackCachePath
                else fs)
              (nlsCachePaths ctx
                (stringValueOf
                  (jsFieldOpt (jsField languagePacks resolvedLocale) "hash")) resolvedLocale).commitLanguagePackCachePath)
                (pathJoin ctx.nlsMetadataPath "nls.messages.json") with _ | m
            · rfl
            · rcases hp2 : readJSONFile (mkdirp
              (if existsPath fs
                  (nlsCachePaths ctx
                    (stringValueOf
                  (jsFieldOpt (jsField languagePacks resolvedLocale) "hash")) resolvedLocale).languagePackCorruptMarkerFile
                then rimraf fs
                  (nlsCachePaths ctx
                    (stringValueOf
                  (jsFieldOpt (jsField languagePacks resolvedLocale) "hash")) resolvedLocale).globalLanguagePackCachePath
                else fs)
              (nlsCachePaths ctx
                (stringValueOf
                  (jsFieldOpt (jsField languagePacks resolvedLocale) "hash")) resolvedLocale).commitLanguagePackCachePath) (stringValueOf
              (optChainField
                (optChainField (jsField languagePacks resolvedLocale)
                  "translations") "vscode")) with _ | p
              · rfl
              · rcases hfail (mkdirp
              (if existsPath fs
                  (nlsCachePaths ctx
                    (stringValueOf
                  (jsFieldOpt (jsField languagePacks resolvedLocale) "hash")) resolvedLocale).languagePackCorruptMarkerFile
                then rimraf fs
                  (nlsCachePaths ctx
                    (stringValueOf
                  (jsFieldOpt (jsField languagePacks resolvedLocale) "hash")) resolvedLocale).globalLanguagePackCachePath
                else fs)
              (nlsCachePaths ctx
                (stringValueOf
                  (jsFieldOpt (jsField languagePacks resolvedLocale) "hash")) resolvedLocale).commitLanguagePackCachePath) with hk | hm | hp | hgen
                · rw [hk] at hk2
                  exact absurd hk2 (by simp)
                · rw [hm] at hm2
                  exact absurd hm2 (by simp)
                · rw [hp] at hp2
                  exact absurd hp2 (by simp)
                · simp only [hgen k m p hk2 hm2 hp2]
      · simp [ht]

/-- Concrete instances of C4: `userLocale = "en"` short-circuits to the
default configuration, and a valid but empty `languagepacks.json` leaves
`de-CH` unresolvable on an otherwise eligible context. -/
theorem c4_nls_default_configuration_witness :
    (resolveNLSConfiguration ⟨false, "en", "de", "/data", "c0ffee", "/meta"⟩
        ⟨[], []⟩).2
      = defaultNLSConfiguration
          ⟨false, "en", "de", "/data", "c0ffee", "/meta"⟩ ∧
    (resolveNLSConfiguration
        ⟨false, "de-CH", "de", "/data", "c0ffee", "/meta"⟩
        ⟨[("/data/languagepacks.json", "\x7b\x7d")], []⟩).2
      = defaultNLSConfiguration
          ⟨false, "de-CH", "de", "/data", "c0ffee", "/meta"⟩ :=
  ⟨c4_nls_default_configuration.2.1 _ _ (by decide),
   c4_nls_default_configuration.2.2.2.1 _ _ (JSValue.obj [])
     (by rfl) (by rfl)⟩

end VSCode
